import Mathlib

/-!
# gosqs: the request construction and response decoding pipeline of `sqs.go`

A shallow embedding of `src/sqs.go`.  Go functions become Lean functions with
the same names.  What the Go code receives from outside is made explicit:

* `Lib` holds the pure library functions whose text is not in `sqs.go`
  (`url.Parse`, `strconv.ParseInt`, the package's `sign`);
* `World` holds what one call observes of its surroundings: the clock reading
  and the outcome of the single `http.DefaultClient.Do`;
* a response body is given by the stream of XML tokens it holds, arranged as a
  tree (`Xml`), so that `encoding/xml` is modelled by its field matching rules.

Writes to standard output (the debugging `Printf`/`Println` calls) are left out.
-/

set_option autoImplicit false

namespace Sqs

/-! ## Go values -/

/-- Go `error` values, identified by their message; `Option GoError` is an
`error` that may be nil. -/
abbrev GoError := String

/-- The `aws.Auth` credentials. -/
structure Auth where
  AccessKey : String
  SecretKey : String
deriving DecidableEq, Repr

/-- The part of `aws.Region` used by this package. -/
structure Region where
  Name : String
  EC2Endpoint : String
deriving DecidableEq, Repr

/-- The SQS type encapsulates operations with a specific SQS region. -/
structure SQS where
  Auth : Auth
  Region : Region
deriving DecidableEq, Repr

/-- The Queue type encapsulates operations with an SQS queue. -/
structure Queue where
  SQS : SQS
  path : String
deriving DecidableEq, Repr

/-- An Attribute specifies which attribute of a message to set or receive. -/
abbrev Attribute := String

/-- New creates a new SQS. -/
def New (auth : Auth) (region : Region) : SQS := ⟨auth, region⟩

/-! ## `url.Values` and `http.Header`: maps from a key to a list of strings -/

/-- A Go `map[string][]string`, kept as the list of its entries.  `set` never
leaves two entries with one key. -/
structure Values where
  entries : List (String × List String)
deriving DecidableEq, Repr

namespace Values

/-- The literal `url.Values{}`. -/
def empty : Values := ⟨[]⟩

/-- The map read `m[k]`, with `none` for an absent key. -/
def get? (m : Values) (k : String) : Option (List String) :=
  m.entries.lookup k

/-- The map write `m[k] = v`. -/
def set (m : Values) (k : String) (v : List String) : Values :=
  ⟨m.entries.filter (fun p => p.1 != k) ++ [(k, v)]⟩

/-- The keys of the map. -/
def keys (m : Values) : List String :=
  (m.entries.map Prod.fst).eraseDups

/-- Go `len(m)`. -/
def len (m : Values) : Nat := m.keys.length

end Values

/-! ## `strconv`, `strings`, `path` -/

/-- The decimal digit `d` as a character. -/
def digitChar (d : Nat) : Char := Char.ofNat (48 + d)

/-- Decimal digits of `n`, most significant first, pushed in front of `acc`. -/
def decimalAux : Nat → Nat → List Char → List Char
  | 0, _, acc => acc
  | fuel + 1, n, acc =>
    if n < 10 then digitChar n :: acc
    else decimalAux fuel (n / 10) (digitChar (n % 10) :: acc)

/-- The decimal representation of a natural number. -/
def decimal (n : Nat) : String := String.mk (decimalAux (n + 1) n [])

/-- Go `strconv.Itoa`, also the `%d` verb of `fmt.Sprintf`. -/
def Itoa (i : Int) : String :=
  if i < 0 then "-" ++ decimal i.natAbs else decimal i.natAbs

/-- Go `strings.Replace(s, old, new, 1)` on the characters of a non-empty `old`. -/
def replaceFirst (old new : List Char) : List Char → List Char
  | [] => []
  | c :: cs =>
    if old.isPrefixOf (c :: cs) then new ++ (c :: cs).drop old.length
    else c :: replaceFirst old new cs

/-- Go `strings.Replace(s, old, new, 1)`. -/
def stringsReplace1 (s old new : String) : String :=
  String.mk (replaceFirst old.data new.data s.data)

/-- Go `path.Base`: the last element of a path, after trailing slashes are
removed; `"."` for the empty path and `"/"` for a path of slashes only. -/
def pathBase (p : String) : String :=
  if p = "" then "."
  else
    let stripped := p.data.reverse.dropWhile (fun c => c == '/')
    let last := (stripped.takeWhile (fun c => c != '/')).reverse
    if last = [] then "/" else String.mk last

/-! ## `url.Values.Encode` -/

/-- The bytes of the UTF-8 encoding of a string. -/
def utf8Bytes (s : String) : List Nat :=
  s.data.flatMap (fun c => (String.utf8EncodeChar c).map UInt8.toNat)

/-- The bytes `url.QueryEscape` leaves as they are: letters, digits and `-_.~`. -/
def unreserved (b : Nat) : Bool :=
  (97 ≤ b && b ≤ 122) || (65 ≤ b && b ≤ 90) || (48 ≤ b && b ≤ 57) ||
  b == 45 || b == 95 || b == 46 || b == 126

/-- An upper-case hexadecimal digit. -/
def upperhex (d : Nat) : Char :=
  if d < 10 then Char.ofNat (48 + d) else Char.ofNat (55 + d)

/-- One byte under `url.QueryEscape`. -/
def escapeByte (b : Nat) : List Char :=
  if unreserved b then [Char.ofNat b]
  else if b = 32 then ['+']
  else ['%', upperhex (b / 16), upperhex (b % 16)]

/-- Go `url.QueryEscape`. -/
def QueryEscape (s : String) : String :=
  String.mk ((utf8Bytes s).flatMap escapeByte)

/-- Go `url.Values.Encode`: `key=value` pairs joined by `&`, sorted by key. -/
def Values.Encode (v : Values) : String :=
  let ks := v.keys.mergeSort (fun a b => decide (a ≤ b))
  "&".intercalate
    (ks.flatMap (fun k =>
      ((v.get? k).getD []).map (fun x => QueryEscape k ++ "=" ++ QueryEscape x)))

/-! ## The XML a response body holds

`encoding/xml` reads a body as a stream of tokens.  The stream is kept as the
tree it spells out.  A `broken` node is an element whose start tag and listed
children were read and whose end tag was never reached, because the tokenizer
failed there with the given error (a syntax error or the end of the input).
Comments, processing instructions and attributes are left out: no struct of
this package has a field for them, and `encoding/xml` passes over them. -/

/-- The tokens of an XML body, as a tree. -/
inductive Xml where
  | text (s : String)
  | elem (name : String) (children : List Xml)
  | broken (name : String) (children : List Xml) (e : GoError)
deriving Repr

/-- What `xml.Unmarshal` finds when it looks for the root element: the root,
or the error met before any start tag (`io.EOF` for a body without markup). -/
inductive XmlInput where
  | document (root : Xml)
  | noRoot (e : GoError)
deriving Repr

namespace Xml

/-- The local name of an element; text has none. -/
def name? : Xml → Option String
  | text _ => none
  | elem n _ => some n
  | broken n _ _ => some n

/-- The children of an element. -/
def children : Xml → List Xml
  | text _ => []
  | elem _ cs => cs
  | broken _ cs _ => cs

mutual
/-- Go `Decoder.Skip` on an element: the first tokenizer error inside it, if any. -/
def skip : Xml → Option GoError
  | text _ => none
  | elem _ cs => skipList cs
  | broken _ cs e =>
    match skipList cs with
    | some e1 => some e1
    | none => some e
/-- The first tokenizer error in a list of nodes, in document order. -/
def skipList : List Xml → Option GoError
  | [] => none
  | x :: xs =>
    match skip x with
    | some e => some e
    | none => skipList xs
end

/-- A node is well formed when the tokenizer meets no error inside it. -/
def wellFormed (x : Xml) : Prop := x.skip = none

end Xml

/-- The character data directly inside an element, read up to its end tag:
text children are concatenated and child elements are skipped. -/
def charData : List Xml → Except GoError String
  | [] => .ok ""
  | .text s :: rest =>
    match charData rest with
    | .ok t => .ok (s ++ t)
    | .error e => .error e
  | x :: rest =>
    match x.skip with
    | some e => .error e
    | none => charData rest

/-- The value `encoding/xml` gives a field of kind string, int or the like for
one matching element: its character data, unless the tokenizer fails before
the end tag. -/
def elementText : Xml → Except GoError String
  | .text _ => .ok ""
  | .elem _ cs => charData cs
  | .broken _ cs e =>
    match charData cs with
    | .ok _ => .error e
    | .error e1 => .error e1

/-- The token loop of `unmarshal` and `unmarshalPath` over the children of an
element, in document order, stopping at the first error.  Values assigned
before the error stay assigned. -/
def walk {σ : Type} (f : σ → Xml → σ × Option GoError) : σ → List Xml → σ × Option GoError
  | s, [] => (s, none)
  | s, x :: xs =>
    match f s x with
    | (s1, some e) => (s1, some e)
    | (s1, none) => walk f s1 xs

/-- The token loop inside one element: its children are handed to `f`; the
end tag of a `broken` element is never found and its error is returned. -/
def inElement {σ : Type} (f : σ → Xml → σ × Option GoError) (s : σ) : Xml → σ × Option GoError
  | .text _ => (s, none)
  | .elem _ cs => walk f s cs
  | .broken _ cs e =>
    match walk f s cs with
    | (s1, some e1) => (s1, some e1)
    | (s1, none) => (s1, some e)

/-- A field of kind string matched by element `x`: assigned when the element
is read to its end. -/
def setString {σ : Type} (assign : σ → String → σ) (s : σ) (x : Xml) : σ × Option GoError :=
  match elementText x with
  | .ok v => (assign s v, none)
  | .error e => (s, some e)

/-- An element no field matches: `Decoder.Skip`. -/
def skipElement {σ : Type} (s : σ) (x : Xml) : σ × Option GoError := (s, x.skip)

/-- Go `xml.Unmarshal(body, target)` for a target whose fields are filled by
`onChild` from the children of the root element.  The name of the root is not
checked: no struct of this package has an `XMLName` field. -/
def xmlUnmarshal {σ : Type} (onChild : σ → Xml → σ × Option GoError) (body : XmlInput) (target : σ) :
    σ × Option GoError :=
  match body with
  | .noRoot e => (target, some e)
  | .document root => inElement onChild target root

/-! ## HTTP requests and responses, and what lies outside `sqs.go` -/

/-- The fields of a parsed `url.URL` this package reads or writes. -/
structure URL where
  Scheme : String
  Host : String
  Path : String
  RawQuery : String
deriving DecidableEq, Repr

/-- The fields of `http.Request` this package sets.  `Body` is the text the
body reader yields, `none` for a request without body. -/
structure Request where
  Method : String
  URL : URL
  Header : Values
  Host : String
  Body : Option String
  ContentLength : Int
deriving DecidableEq, Repr

/-- The fields of `http.Response` this package reads.  `Body` is the outcome
of `ioutil.ReadAll(r.Body)`: a read error, or the XML the bytes hold. -/
structure Response where
  StatusCode : Int
  Status : String
  Body : Except GoError XmlInput

/-- Pure functions the package calls and whose text is not in `sqs.go`. -/
structure Lib where
  /-- Go `url.Parse`. -/
  parseURL : String → Except GoError URL
  /-- Go `strconv.ParseInt(strings.TrimSpace(s), 10, 64)`, as `encoding/xml`
  calls it for a field of kind int. -/
  parseInt : String → Except GoError Int
  /-- The package's `sign(auth, method, path, params, headers)`, defined in
  another file: it writes to the two maps it is given; they are returned. -/
  sign : Auth → String → String → Values → Values → Values × Values

/-- What one operation observes of its surroundings. -/
structure World where
  /-- The text of `time.Now().UTC().Format(time.RFC3339)`. -/
  now : String
  /-- The outcome of `http.DefaultClient.Do(req)`. -/
  answer : Except GoError Response

/-- Error encapsulates an error returned by SDB. -/
structure SqsError where
  /-- The proper error. -/
  Error : Option GoError
  /-- HTTP status code (200, 403, ...). -/
  StatusCode : Int
  /-- HTTP status message ("Service Unavailable", "Bad Request", ...). -/
  StatusMsg : String
  /-- Whether the error was a receiver or sender error. -/
  «Type» : String
  /-- SQS error code ("InvalidParameterValue", ...). -/
  Code : String
  /-- The human-oriented error message. -/
  Message : String
  /-- A unique ID for this request. -/
  RequestId : String
deriving DecidableEq, Repr

/-- Go `(err *SqsError) String()`. -/
def SqsError.String (err : SqsError) : String := err.Message

/-- Calls an operation makes, recorded in the order they happen. -/
inductive Event where
  /-- The call `http.DefaultClient.Do(req)`. -/
  | httpDo (req : Request)
  /-- The call `buildError(r)`. -/
  | buildError
  /-- The call `xml.Unmarshal(body, resp)` on the target of the caller. -/
  | unmarshal
deriving DecidableEq, Repr

/-- What `doRequest`, `get` and `post` leave behind: the returned `*SqsError`
(nil is `none`), the target `resp` after the call, and the calls made. -/
structure Outcome (τ : Type) where
  err : Option SqsError
  resp : τ
  log : List Event

/-- What an operation returns: its value, its `*SqsError`, and the calls made. -/
structure Ret (α : Type) where
  val : α
  err : Option SqsError
  log : List Event

/-! ## The response types and how `encoding/xml` fills them

One function per struct, written from its field names and `xml` tags.  A field
with tag `a>b>c` is matched by an element `c` inside `b` inside `a` inside the
root; a field without tag is matched by a child of the root with the name of
the field; the fields of an embedded struct count as fields of the struct. -/

/-- Go `ResponseMetadata`. -/
structure ResponseMetadata where
  RequestId : String
deriving DecidableEq, Repr

/-- Filling `ResponseMetadata` from a child of the root. -/
def ResponseMetadata.onChild (m : ResponseMetadata) (x : Xml) : ResponseMetadata × Option GoError :=
  if x.name? = some "RequestId" then setString (fun m v => { m with RequestId := v }) m x
  else skipElement m x

/-- Filling `SqsError` from a child of the root.  `Error` has kind interface:
`encoding/xml` skips the element matching such a field. -/
def SqsError.onChild (L : Lib) (s : SqsError) (x : Xml) : SqsError × Option GoError :=
  if x.name? = some "Error" then skipElement s x
  else if x.name? = some "StatusCode" then
    match elementText x with
    | .error e => (s, some e)
    | .ok v =>
      if v = "" then ({ s with StatusCode := 0 }, none)
      else
        match L.parseInt v with
        | .ok i => ({ s with StatusCode := i }, none)
        | .error e => (s, some e)
  else if x.name? = some "StatusMsg" then setString (fun s v => { s with StatusMsg := v }) s x
  else if x.name? = some "Type" then setString (fun s v => { s with «Type» := v }) s x
  else if x.name? = some "Code" then setString (fun s v => { s with Code := v }) s x
  else if x.name? = some "Message" then setString (fun s v => { s with Message := v }) s x
  else if x.name? = some "RequestId" then setString (fun s v => { s with RequestId := v }) s x
  else skipElement s x

/-- Go `listQueuesResponse`. -/
structure listQueuesResponse where
  /-- Tag `ListQueuesResult>QueueUrl`. -/
  Queues : List String
  ResponseMetadata : ResponseMetadata
deriving DecidableEq, Repr

/-- Inside `ListQueuesResult`: each `QueueUrl` appends one string. -/
def listQueuesResponse.onResult (r : listQueuesResponse) (x : Xml) : listQueuesResponse × Option GoError :=
  if x.name? = some "QueueUrl" then setString (fun r v => { r with Queues := r.Queues ++ [v] }) r x
  else skipElement r x

/-- Filling `listQueuesResponse` from a child of the root. -/
def listQueuesResponse.onChild (r : listQueuesResponse) (x : Xml) : listQueuesResponse × Option GoError :=
  if x.name? = some "ListQueuesResult" then inElement listQueuesResponse.onResult r x
  else if x.name? = some "RequestId" then
    setString (fun r v => { r with ResponseMetadata := { r.ResponseMetadata with RequestId := v } }) r x
  else skipElement r x

/-- Go `createQueuesResponse`. -/
structure createQueuesResponse where
  /-- Tag `CreateQueueResult>QueueUrl`. -/
  QueueUrl : String
  ResponseMetadata : ResponseMetadata
deriving DecidableEq, Repr

/-- Inside `CreateQueueResult`. -/
def createQueuesResponse.onResult (r : createQueuesResponse) (x : Xml) : createQueuesResponse × Option GoError :=
  if x.name? = some "QueueUrl" then setString (fun r v => { r with QueueUrl := v }) r x
  else skipElement r x

/-- Filling `createQueuesResponse` from a child of the root. -/
def createQueuesResponse.onChild (r : createQueuesResponse) (x : Xml) : createQueuesResponse × Option GoError :=
  if x.name? = some "CreateQueueResult" then inElement createQueuesResponse.onResult r x
  else if x.name? = some "RequestId" then
    setString (fun r v => { r with ResponseMetadata := { r.ResponseMetadata with RequestId := v } }) r x
  else skipElement r x

/-- The element type of `QueueAttributes.Attributes`. -/
structure AttributeValue where
  Name : String
  Value : String
deriving DecidableEq, Repr

/-- Filling one attribute from a child of `Attribute`. -/
def AttributeValue.onChild (a : AttributeValue) (x : Xml) : AttributeValue × Option GoError :=
  if x.name? = some "Name" then setString (fun a v => { a with Name := v }) a x
  else if x.name? = some "Value" then setString (fun a v => { a with Value := v }) a x
  else skipElement a x

/-- Go `QueueAttributes`. -/
structure QueueAttributes where
  /-- Tag `ResponseMetadata>RequestId`. -/
  Id : String
  /-- Tag `GetQueueAttributesResult>Attribute`. -/
  Attributes : List AttributeValue
deriving DecidableEq, Repr

/-- Inside `ResponseMetadata`. -/
def QueueAttributes.onMetadata (r : QueueAttributes) (x : Xml) : QueueAttributes × Option GoError :=
  if x.name? = some "RequestId" then setString (fun r v => { r with Id := v }) r x
  else skipElement r x

/-- Inside `GetQueueAttributesResult`: each `Attribute` appends one struct,
which is dropped again when reading it fails. -/
def QueueAttributes.onResult (r : QueueAttributes) (x : Xml) : QueueAttributes × Option GoError :=
  if x.name? = some "Attribute" then
    match inElement AttributeValue.onChild ⟨"", ""⟩ x with
    | (a, none) => ({ r with Attributes := r.Attributes ++ [a] }, none)
    | (_, some e) => (r, some e)
  else skipElement r x

/-- Filling `QueueAttributes` from a child of the root. -/
def QueueAttributes.onChild (r : QueueAttributes) (x : Xml) : QueueAttributes × Option GoError :=
  if x.name? = some "ResponseMetadata" then inElement QueueAttributes.onMetadata r x
  else if x.name? = some "GetQueueAttributesResult" then inElement QueueAttributes.onResult r x
  else skipElement r x

/-- Go `Message`. -/
structure Message where
  /-- Tag `ReceiveMessageResult>Message>MessageId`. -/
  Id : String
  /-- Tag `ReceiveMessageResult>Message>Body`. -/
  Body : String
deriving DecidableEq, Repr

/-- Inside `ReceiveMessageResult>Message`. -/
def Message.onMessage (m : Message) (x : Xml) : Message × Option GoError :=
  if x.name? = some "MessageId" then setString (fun m v => { m with Id := v }) m x
  else if x.name? = some "Body" then setString (fun m v => { m with Body := v }) m x
  else skipElement m x

/-- Inside `ReceiveMessageResult`. -/
def Message.onResult (m : Message) (x : Xml) : Message × Option GoError :=
  if x.name? = some "Message" then inElement Message.onMessage m x
  else skipElement m x

/-- Filling `Message` from a child of the root. -/
def Message.onChild (m : Message) (x : Xml) : Message × Option GoError :=
  if x.name? = some "ReceiveMessageResult" then inElement Message.onResult m x
  else skipElement m x

/-- Go `sendMessageResponse`. -/
structure sendMessageResponse where
  /-- Tag `SendMessageResult>MessageId`. -/
  Id : String
  ResponseMetadata : ResponseMetadata
deriving DecidableEq, Repr

/-- Inside `SendMessageResult`. -/
def sendMessageResponse.onResult (r : sendMessageResponse) (x : Xml) : sendMessageResponse × Option GoError :=
  if x.name? = some "MessageId" then setString (fun r v => { r with Id := v }) r x
  else skipElement r x

/-- Filling `sendMessageResponse` from a child of the root. -/
def sendMessageResponse.onChild (r : sendMessageResponse) (x : Xml) : sendMessageResponse × Option GoError :=
  if x.name? = some "SendMessageResult" then inElement sendMessageResponse.onResult r x
  else if x.name? = some "RequestId" then
    setString (fun r v => { r with ResponseMetadata := { r.ResponseMetadata with RequestId := v } }) r x
  else skipElement r x

/-! ## The pipeline: `newRequest`, `buildError`, `doRequest`, `post`, `get` -/

/-- Go `http.NewRequest(method, url, nil)`: it fails when the URL does not
parse.  (For the two methods this package uses, `GET` and `POST`, no release
of Go rejects the method.) -/
def NewRequest (L : Lib) (method url_ : String) : Except GoError Request :=
  match L.parseURL url_ with
  | .error err => .error err
  | .ok u =>
    .ok { Method := method, URL := u, Header := Values.empty, Host := u.Host,
          Body := none, ContentLength := 0 }

/-- Go `(sqs *SQS) newRequest`.  The map `params` is written in place; the
map as it stands on return is the second component. -/
def SQS.newRequest (L : Lib) (W : World) (sqs : SQS) (method action url_ : String)
    (params : Values) : Except GoError (Request × Values) :=
  match NewRequest L method url_ with
  | .error err => .error err
  | .ok req =>
    let params := params.set "Action" [action]
    let params := params.set "Timestamp" [W.now]
    let params := params.set "Version" ["2009-02-01"]
    let req := { req with Header := req.Header.set "Host" [req.Host] }
    let signed := L.sign sqs.Auth method req.URL.Path params req.Header
    .ok ({ req with Header := signed.2 }, signed.1)

/-- Go `buildError`.  The result of `xml.Unmarshal(body, &sqsError)` is not
looked at; the second test of `err` can never succeed. -/
def buildError (L : Lib) (r : Response) : SqsError :=
  let sqsError : SqsError :=
    { Error := none, StatusCode := r.StatusCode, StatusMsg := r.Status,
      «Type» := "", Code := "", Message := "", RequestId := "" }
  match r.Body with
  | .error err => { sqsError with Error := some err }
  | .ok body => (xmlUnmarshal (SqsError.onChild L) body sqsError).1

/-- Go `(sqs *SQS) doRequest`.  `onChild` tells how `xml.Unmarshal` fills the
type of the target `resp`.  The deferred `r.Body.Close()` is not modelled. -/
def SQS.doRequest {τ : Type} (L : Lib) (W : World) (_sqs : SQS) (req : Request)
    (onChild : τ → Xml → τ × Option GoError) (resp : τ) : Outcome τ :=
  match W.answer with
  | .error e => ⟨some ⟨some e, 0, "", "", "", "", ""⟩, resp, [.httpDo req]⟩
  | .ok r =>
    if r.StatusCode ≠ 200 then
      ⟨some (buildError L r), resp, [.httpDo req, .buildError]⟩
    else
      match r.Body with
      | .error e => ⟨some ⟨some e, 0, "", "", "", "", ""⟩, resp, [.httpDo req]⟩
      | .ok body =>
        match xmlUnmarshal onChild body resp with
        | (resp1, some e) =>
          ⟨some ⟨some e, 0, "", "", "", "", ""⟩, resp1, [.httpDo req, .unmarshal]⟩
        | (resp1, none) => ⟨none, resp1, [.httpDo req, .unmarshal]⟩

/-- Go `(sqs *SQS) post`. -/
def SQS.post {τ : Type} (L : Lib) (W : World) (sqs : SQS) (action path : String)
    (params : Values) (onChild : τ → Xml → τ × Option GoError) (resp : τ) : Outcome τ :=
  let endpoint := stringsReplace1 sqs.Region.EC2Endpoint "ec2" "sqs" ++ path
  match sqs.newRequest L W "POST" action endpoint params with
  | .error e => ⟨some ⟨some e, 0, "", "", "", "", ""⟩, resp, []⟩
  | .ok (req, params) =>
    let req := { req with
      Header := req.Header.set "Content-Type" ["application/x-www-form-urlencoded"] }
    let encodedParams := params.Encode
    let req := { req with Body := some encodedParams }
    let req := { req with ContentLength := (encodedParams.utf8ByteSize : Int) }
    sqs.doRequest L W req onChild resp

/-- Go `(sqs *SQS) get`; a nil `params` is `none`. -/
def SQS.get {τ : Type} (L : Lib) (W : World) (sqs : SQS) (action path : String)
    (params : Option Values) (onChild : τ → Xml → τ × Option GoError) (resp : τ) : Outcome τ :=
  let params := match params with
    | none => Values.empty
    | some p => p
  let endpoint := stringsReplace1 sqs.Region.EC2Endpoint "ec2" "sqs" ++ path
  match sqs.newRequest L W "GET" action endpoint params with
  | .error e => ⟨some ⟨some e, 0, "", "", "", "", ""⟩, resp, []⟩
  | .ok (req, params) =>
    let req :=
      if params.len > 0 then { req with URL := { req.URL with RawQuery := params.Encode } }
      else req
    sqs.doRequest L W req onChild resp

/-! ## The operations -/

/-- Go `(q *Queue) Name`. -/
def Queue.Name (q : Queue) : String := pathBase q.path

/-- The loop of `ListQueues` over `resp.Queues`: the handles in the order of
the URLs, or the error of the first URL that does not parse. -/
def SQS.listQueuesLoop (L : Lib) (sqs : SQS) : List String → Except GoError (List Queue)
  | [] => .ok []
  | queue :: rest =>
    match L.parseURL queue with
    | .error e => .error e
    | .ok u =>
      match SQS.listQueuesLoop L sqs rest with
      | .error e => .error e
      | .ok queues => .ok (⟨sqs, u.Path⟩ :: queues)

/-- Go `(sqs *SQS) ListQueues`; a nil slice is `none`. -/
def SQS.ListQueues (L : Lib) (W : World) (sqs : SQS) (namePrefix : String) :
    Ret (Option (List Queue)) :=
  let params := Values.empty
  let params := if namePrefix ≠ "" then params.set "QueueNamePrefix" [namePrefix] else params
  let resp : listQueuesResponse := ⟨[], ⟨""⟩⟩
  let out := sqs.get L W "ListQueues" "/" (some params) listQueuesResponse.onChild resp
  match out.err with
  | some err => ⟨none, some err, out.log⟩
  | none =>
    match sqs.listQueuesLoop L out.resp.Queues with
    | .error e => ⟨none, some ⟨some e, 0, "", "", "", "", ""⟩, out.log⟩
    | .ok queues => ⟨some queues, none, out.log⟩

/-- Go `(sqs *SQS) Queue`. -/
def SQS.Queue (L : Lib) (W : World) (sqs : SQS) (name : String) : Ret (Option Sqs.Queue) :=
  let r := sqs.ListQueues L W name
  match r.err with
  | some err => ⟨none, some err, r.log⟩
  | none =>
    match (r.val.getD []).find? (fun q => q.Name == name) with
    | some q => ⟨some q, none, r.log⟩
    | none => ⟨none, some ⟨some "Did not find the queue.", 0, "", "", "", "", ""⟩, r.log⟩

/-- Go `CreateQueueOpt`. -/
structure CreateQueueOpt where
  DefaultVisibilityTimeout : Int
  MaximumMessageSize : Int
deriving DecidableEq, Repr

/-- Go `(sqs *SQS) CreateQueue`; a nil `opt` is `none`. -/
def SQS.CreateQueue (L : Lib) (W : World) (sqs : SQS) (name : String)
    (opt : Option CreateQueueOpt) : Ret (Option Sqs.Queue) :=
  let params : Values := ⟨[("QueueName", [name])]⟩
  let params := match opt with
    | none => params
    | some o =>
      let dvt := Itoa o.DefaultVisibilityTimeout
      let params := params.set "DefaultVisibilityTimeout" [dvt]
      let mms := Itoa o.MaximumMessageSize
      params.set "MaximumMessageSize" [mms]
  let resp : createQueuesResponse := ⟨"", ⟨""⟩⟩
  let out := sqs.get L W "CreateQueue" "/" (some params) createQueuesResponse.onChild resp
  match out.err with
  | some err => ⟨none, some err, out.log⟩
  | none =>
    match L.parseURL out.resp.QueueUrl with
    | .error e => ⟨none, some ⟨some e, 0, "", "", "", "", ""⟩, out.log⟩
    | .ok u => ⟨some ⟨sqs, u.Path⟩, none, out.log⟩

/-- Go `(q *Queue) DeleteQueue`. -/
def Queue.DeleteQueue (L : Lib) (W : World) (q : Queue) : Ret Unit :=
  let params := Values.empty
  let resp : ResponseMetadata := ⟨""⟩
  let out := q.SQS.get L W "DeleteQueue" q.path (some params) ResponseMetadata.onChild resp
  match out.err with
  | some err => ⟨(), some err, out.log⟩
  | none => ⟨(), none, out.log⟩

/-- The loop of `GetQueueAttributes`: the attribute at index `i` is written
under the key `AttributeName.` followed by `i+1` in decimal. -/
def attributeParams : Nat → List Attribute → Values → Values
  | _, [], params => params
  | i, attr :: rest, params =>
    let key := "AttributeName." ++ Itoa ((i : Int) + 1)
    attributeParams (i + 1) rest (params.set key [attr])

/-- Go `(q *Queue) GetQueueAttributes`; a nil result is `none`. -/
def Queue.GetQueueAttributes (L : Lib) (W : World) (q : Queue) (attrs : List Attribute) :
    Ret (Option QueueAttributes) :=
  let params := attributeParams 0 attrs Values.empty
  let resp : QueueAttributes := ⟨"", []⟩
  let out := q.SQS.get L W "GetQueueAttributes" q.path (some params) QueueAttributes.onChild resp
  match out.err with
  | some err => ⟨none, some err, out.log⟩
  | none => ⟨some out.resp, none, out.log⟩

/-- Go `(q *Queue) ReceiveMessage`; a nil result is `none`. -/
def Queue.ReceiveMessage (L : Lib) (W : World) (q : Queue) : Ret (Option Message) :=
  let resp : Message := ⟨"", ""⟩
  let out := q.SQS.get L W "ReceiveMessage" q.path none Message.onChild resp
  match out.err with
  | some err => ⟨none, some err, out.log⟩
  | none => ⟨some out.resp, none, out.log⟩

/-- Go `(q *Queue) SendMessage`.  The branch under `if false` is never taken. -/
def Queue.SendMessage (L : Lib) (W : World) (q : Queue) (body : String) : Ret String :=
  let params : Values := ⟨[("MessageBody", [body])]⟩
  let resp : sendMessageResponse := ⟨"", ⟨""⟩⟩
  let out := q.SQS.post L W "SendMessage" q.path params sendMessageResponse.onChild resp
  match out.err with
  | some err => ⟨"", some err, out.log⟩
  | none => ⟨out.resp.Id, none, out.log⟩

/-! ## Notions used in the statements -/

/-- The number a list of decimal digits spells, read from the left. -/
def digitsValue (cs : List Char) : Nat :=
  cs.foldl (fun a c => a * 10 + (c.toNat - 48)) 0

/-- The key `GetQueueAttributes` writes for the attribute at index `i`. -/
def attributeKey (i : Nat) : String := "AttributeName." ++ Itoa ((i : Int) + 1)

/-- The structured error has an underlying cause. -/
def SqsError.hasCause (e : SqsError) : Prop := e.Error ≠ none

/-- The structured error has one of the service fields `Type`, `Code`,
`Message`, `RequestId`. -/
def SqsError.hasServiceFields (e : SqsError) : Prop :=
  e.«Type» ≠ "" ∨ e.Code ≠ "" ∨ e.Message ≠ "" ∨ e.RequestId ≠ ""

/-- Exactly one of cause and service fields is there, and a cause comes with
no field but `StatusCode`. -/
def SqsError.exactlyOne (e : SqsError) : Prop :=
  (e.hasCause ∧ ¬ e.hasServiceFields ∧ e.StatusMsg = "") ∨
  (¬ e.hasCause ∧ e.hasServiceFields)

/-- A cause comes with none of the service fields. -/
def SqsError.causeAlone (e : SqsError) : Prop :=
  e.hasCause → e.«Type» = "" ∧ e.Code = "" ∧ e.Message = "" ∧ e.RequestId = ""

instance (x : Xml) : Decidable x.wellFormed :=
  inferInstanceAs (Decidable (x.skip = none))

instance (e : SqsError) : Decidable e.hasCause :=
  inferInstanceAs (Decidable (e.Error ≠ none))

instance (e : SqsError) : Decidable e.hasServiceFields :=
  inferInstanceAs (Decidable (e.«Type» ≠ "" ∨ e.Code ≠ "" ∨ e.Message ≠ "" ∨ e.RequestId ≠ ""))

instance (e : SqsError) : Decidable e.exactlyOne :=
  inferInstanceAs (Decidable ((e.hasCause ∧ ¬ e.hasServiceFields ∧ e.StatusMsg = "") ∨
    (¬ e.hasCause ∧ e.hasServiceFields)))

instance (e : SqsError) : Decidable e.causeAlone :=
  inferInstanceAs (Decidable (e.hasCause →
    e.«Type» = "" ∧ e.Code = "" ∧ e.Message = "" ∧ e.RequestId = ""))

/-! ## Example inputs -/

/-- A stand-in for `url.Parse` on `https` URLs without query: the host runs up
to the first slash and the path is the rest; a URL with a space is refused. -/
def exampleParseURL (s : String) : Except GoError URL :=
  if s.data.contains ' ' then .error "parse: invalid character in host name"
  else
    let rest := s.data.drop 8
    .ok ⟨"https", String.mk (rest.takeWhile (fun c => c != '/')),
         String.mk (rest.dropWhile (fun c => c != '/')), ""⟩

/-- A library instance for the examples; its signer adds three parameters. -/
def exampleLib : Lib where
  parseURL := exampleParseURL
  parseInt := fun s =>
    match s.toInt? with
    | some i => .ok i
    | none => .error "strconv.ParseInt: invalid syntax"
  sign := fun auth _ _ params headers =>
    (((params.set "AWSAccessKeyId" [auth.AccessKey]).set "SignatureVersion" ["2"]).set
      "Signature" ["c2lnbmF0dXJl"], headers)

/-- A client for the region `us-east-1`. -/
def exampleSQS : SQS :=
  ⟨⟨"AKID", "secret"⟩, ⟨"us-east-1", "https://ec2.us-east-1.amazonaws.com"⟩⟩

/-- A handle of the queue `test-queue`. -/
def exampleQueue : Queue := ⟨exampleSQS, "/123456789012/test-queue"⟩

/-- A request, as `get` builds it. -/
def exampleRequest : Request :=
  { Method := "GET", URL := ⟨"https", "sqs.us-east-1.amazonaws.com", "/", ""⟩,
    Header := ⟨[("Host", ["sqs.us-east-1.amazonaws.com"])]⟩,
    Host := "sqs.us-east-1.amazonaws.com", Body := none, ContentLength := 0 }

/-- The error document of the service:
`<ErrorResponse><Error><Type>Sender</Type><Code>AccessDenied</Code>`
`<Message>Access to the resource is denied.</Message></Error>`
`<RequestId>42d59b56-7407-4c4a-be0f-4c88daeea257</RequestId></ErrorResponse>`. -/
def errorDocument : Xml :=
  .elem "ErrorResponse"
    [.elem "Error"
      [.elem "Type" [.text "Sender"],
       .elem "Code" [.text "AccessDenied"],
       .elem "Message" [.text "Access to the resource is denied."]],
     .elem "RequestId" [.text "42d59b56-7407-4c4a-be0f-4c88daeea257"]]

/-- A 403 response carrying the error document of the service. -/
def forbidden : Response := ⟨403, "403 Forbidden", .ok (.document errorDocument)⟩

/-- A 403 response whose body is the plain text `Forbidden`: the tokenizer
reaches the end of the input without a start tag. -/
def forbiddenPlain : Response := ⟨403, "403 Forbidden", .ok (.noRoot "EOF")⟩

/-- A 503 response with the well-formed body
`<html><body>Service Unavailable</body></html>`. -/
def unavailable : Response :=
  ⟨503, "503 Service Unavailable",
   .ok (.document (.elem "html" [.elem "body" [.text "Service Unavailable"]]))⟩

/-- A 502 response whose body cannot be read. -/
def unreadable : Response := ⟨502, "502 Bad Gateway", .error "unexpected EOF"⟩

/-- The answer to `ReceiveMessage` on an empty queue, as quoted in `sqs.go`. -/
def emptyReceive : Response :=
  ⟨200, "200 OK",
   .ok (.document (.elem "ReceiveMessageResponse"
     [.elem "ReceiveMessageResult" [],
      .elem "ResponseMetadata"
        [.elem "RequestId" [.text "29faed75-f44b-4424-a3dd-1beb1439c13a"]]]))⟩

/-- The URL the service gives the queue `test-queue`. -/
def testQueueUrl : String := "https://sqs.us-east-1.amazonaws.com/123456789012/test-queue"

/-- The answer to `CreateQueue` for `test-queue`. -/
def created : Response :=
  ⟨200, "200 OK",
   .ok (.document (.elem "CreateQueueResponse"
     [.elem "CreateQueueResult" [.elem "QueueUrl" [.text testQueueUrl]],
      .elem "ResponseMetadata" [.elem "RequestId" [.text "7a62c49f"]]]))⟩

/-- The answer to `ListQueues` naming the one queue `test-queue`. -/
def listed : Response :=
  ⟨200, "200 OK",
   .ok (.document (.elem "ListQueuesResponse"
     [.elem "ListQueuesResult" [.elem "QueueUrl" [.text testQueueUrl]],
      .elem "ResponseMetadata" [.elem "RequestId" [.text "725275ae"]]]))⟩

/-- The answer to `ListQueues` naming two queues, the second with a URL that
does not parse. -/
def listedBad : Response :=
  ⟨200, "200 OK",
   .ok (.document (.elem "ListQueuesResponse"
     [.elem "ListQueuesResult"
       [.elem "QueueUrl" [.text testQueueUrl], .elem "QueueUrl" [.text "not a url"]]]))⟩

/-- A world in which the service answers with `r`. -/
def worldOf (r : Response) : World := ⟨"2012-01-01T00:00:00Z", .ok r⟩

/-! ## Facts about maps -/

theorem filter_ne_cons_same (k : String) (b : List String) (l : List (String × List String)) :
    List.filter (fun p : String × List String => p.1 != k) ((k, b) :: l) =
      List.filter (fun p : String × List String => p.1 != k) l := by
  simp [List.filter_cons]

theorem filter_ne_cons_other (a k : String) (h : a ≠ k) (b : List String)
    (l : List (String × List String)) :
    List.filter (fun p : String × List String => p.1 != k) ((a, b) :: l) =
      (a, b) :: List.filter (fun p : String × List String => p.1 != k) l := by
  simp [List.filter_cons, h]

theorem lookup_filter_append_self (k : String) (v : List String)
    (l : List (String × List String)) :
    List.lookup k (l.filter (fun p => p.1 != k) ++ [(k, v)]) = some v := by
  induction l with
  | nil => simp [List.lookup]
  | cons p l ih =>
    obtain ⟨a, b⟩ := p
    by_cases h : a = k
    · subst h
      rw [filter_ne_cons_same]
      exact ih
    · have hb : (k == a) = false := by
        simp only [beq_eq_false_iff_ne, ne_eq]
        exact fun e => h e.symm
      rw [filter_ne_cons_other a k h, List.cons_append, List.lookup_cons, hb]
      exact ih

theorem lookup_filter_append_ne (k k1 : String) (v : List String) (hk : k1 ≠ k)
    (l : List (String × List String)) :
    List.lookup k1 (l.filter (fun p => p.1 != k) ++ [(k, v)]) = List.lookup k1 l := by
  induction l with
  | nil =>
    have hb : (k1 == k) = false := by simpa using hk
    simp [List.lookup, hb]
  | cons p l ih =>
    obtain ⟨a, b⟩ := p
    by_cases h : a = k
    · subst h
      have hb : (k1 == a) = false := by simpa using hk
      rw [filter_ne_cons_same, List.lookup_cons, hb]
      exact ih
    · rw [filter_ne_cons_other a k h, List.cons_append, List.lookup_cons, List.lookup_cons, ih]

theorem Values.get?_set_self (m : Values) (k : String) (v : List String) :
    (m.set k v).get? k = some v :=
  lookup_filter_append_self k v m.entries

theorem Values.get?_set_ne (m : Values) (k k1 : String) (v : List String) (hk : k1 ≠ k) :
    (m.set k v).get? k1 = m.get? k1 :=
  lookup_filter_append_ne k k1 v hk m.entries

theorem eraseDups_loop_length (as bs : List String) :
    bs.length ≤ (List.eraseDups.loop as bs).length := by
  induction as generalizing bs with
  | nil => simp [List.eraseDups.loop]
  | cons a as ih =>
    unfold List.eraseDups.loop
    cases bs.elem a with
    | true => exact ih bs
    | false => exact Nat.le_trans (Nat.le_succ _) (ih (a :: bs))

theorem eraseDups_cons_length_pos (a : String) (as : List String) :
    0 < (a :: as).eraseDups.length := by
  have h := eraseDups_loop_length as [a]
  have e : (a :: as).eraseDups = List.eraseDups.loop as [a] := by
    simp [List.eraseDups, List.eraseDups.loop]
  rw [e]
  exact h

theorem Values.len_set_pos (m : Values) (k : String) (v : List String) : 0 < (m.set k v).len := by
  unfold Values.len Values.keys Values.set
  simp only []
  cases hf : List.filter (fun p : String × List String => p.1 != k) m.entries with
  | nil => exact eraseDups_cons_length_pos k []
  | cons x xs =>
    rw [List.cons_append, List.map_cons]
    exact eraseDups_cons_length_pos x.1 _

/-! ## The executor and the error builder -/

/-- C1: when the HTTP call yields a response `r` whose status is not 200,
`doRequest` returns exactly `buildError r`, leaves the target of the caller as
it was and never calls `xml.Unmarshal` on it; when the status is 200,
`buildError` is not called. -/
theorem doRequest_routes_by_status {τ : Type} (L : Lib) (W : World) (sqs : SQS) (req : Request)
    (onChild : τ → Xml → τ × Option GoError) (resp : τ) (r : Response)
    (hr : W.answer = .ok r) :
    (r.StatusCode ≠ 200 →
      (sqs.doRequest L W req onChild resp).err = some (buildError L r) ∧
      (sqs.doRequest L W req onChild resp).resp = resp ∧
      (sqs.doRequest L W req onChild resp).log = [.httpDo req, .buildError] ∧
      Event.unmarshal ∉ (sqs.doRequest L W req onChild resp).log) ∧
    (r.StatusCode = 200 →
      Event.buildError ∉ (sqs.doRequest L W req onChild resp).log) := by
  constructor
  · intro h
    simp [SQS.doRequest, hr, h]
  · intro h
    unfold SQS.doRequest
    rw [hr]
    simp only [h, ne_eq, not_true_eq_false, if_false]
    cases hb : r.Body with
    | error e => simp
    | ok body =>
      simp only []
      split <;> simp

/-- The routing of `doRequest` on a 403 response and on a 200 response. -/
theorem doRequest_routes_by_status_witness :
    ((exampleSQS.doRequest exampleLib (worldOf forbidden) exampleRequest Message.onChild ⟨"", ""⟩).err
        = some (buildError exampleLib forbidden) ∧
      (exampleSQS.doRequest exampleLib (worldOf forbidden) exampleRequest Message.onChild ⟨"", ""⟩).resp
        = ⟨"", ""⟩ ∧
      (exampleSQS.doRequest exampleLib (worldOf forbidden) exampleRequest Message.onChild ⟨"", ""⟩).log
        = [.httpDo exampleRequest, .buildError] ∧
      Event.unmarshal ∉
        (exampleSQS.doRequest exampleLib (worldOf forbidden) exampleRequest Message.onChild ⟨"", ""⟩).log) ∧
    Event.buildError ∉
      (exampleSQS.doRequest exampleLib (worldOf emptyReceive) exampleRequest Message.onChild ⟨"", ""⟩).log :=
  ⟨(doRequest_routes_by_status exampleLib (worldOf forbidden) exampleSQS exampleRequest
      Message.onChild ⟨"", ""⟩ forbidden rfl).1 (by decide),
   (doRequest_routes_by_status exampleLib (worldOf emptyReceive) exampleSQS exampleRequest
      Message.onChild ⟨"", ""⟩ emptyReceive rfl).2 (by decide)⟩

/-- C2: on a 403 response whose body is not XML, `buildError` keeps the status
code and leaves `Code` and `Message` empty, but its `Error` field is nil: the
parse failure that `xml.Unmarshal` returns is not recorded.  `doRequest`
records the same failure on a 200 response. -/
theorem buildError_unparseable_body_has_no_cause :
    buildError exampleLib forbiddenPlain = ⟨none, 403, "403 Forbidden", "", "", "", ""⟩ ∧
    (xmlUnmarshal (SqsError.onChild exampleLib) (.noRoot "EOF")
      ⟨none, 403, "403 Forbidden", "", "", "", ""⟩).2 = some "EOF" ∧
    (exampleSQS.doRequest exampleLib (worldOf ⟨200, "200 OK", .ok (.noRoot "EOF")⟩) exampleRequest
      Message.onChild ⟨"", ""⟩).err = some ⟨some "EOF", 0, "", "", "", "", ""⟩ := by
  decide

/-- C3: on a 403 response carrying the error document of the service,
`buildError` keeps the status code and the request id, but `Type`, `Code` and
`Message` stay empty: they sit inside the `Error` element, which is skipped. -/
theorem buildError_service_document_has_no_code :
    buildError exampleLib forbidden =
      ⟨none, 403, "403 Forbidden", "", "", "", "42d59b56-7407-4c4a-be0f-4c88daeea257"⟩ := by
  decide

/-! ## The request builder -/

theorem doRequest_log {τ : Type} (L : Lib) (W : World) (sqs : SQS) (req : Request)
    (onChild : τ → Xml → τ × Option GoError) (resp : τ) :
    ∃ rest, (sqs.doRequest L W req onChild resp).log = Event.httpDo req :: rest ∧
      ∀ r, Event.httpDo r ∉ rest := by
  unfold SQS.doRequest
  cases W.answer with
  | error e => exact ⟨[], rfl, by simp⟩
  | ok r =>
    by_cases h : r.StatusCode = 200
    · simp only [h, ne_eq, not_true_eq_false, if_false]
      cases r.Body with
      | error e => exact ⟨[], rfl, by simp⟩
      | ok body =>
        simp only []
        split
        · exact ⟨[.unmarshal], rfl, by simp⟩
        · exact ⟨[.unmarshal], rfl, by simp⟩
    · simp only [ne_eq, h, not_false_eq_true, if_true]
      exact ⟨[.buildError], rfl, by simp⟩

theorem newRequest_ok (L : Lib) (W : World) (sqs : SQS) (method action url_ : String)
    (params : Values) (u : URL) (hu : L.parseURL url_ = .ok u) :
    sqs.newRequest L W method action url_ params =
      .ok ({ Method := method, URL := u,
             Header := (L.sign sqs.Auth method u.Path
               (((params.set "Action" [action]).set "Timestamp" [W.now]).set
                 "Version" ["2009-02-01"]) ⟨[("Host", [u.Host])]⟩).2,
             Host := u.Host, Body := none, ContentLength := 0 },
           (L.sign sqs.Auth method u.Path
             (((params.set "Action" [action]).set "Timestamp" [W.now]).set
               "Version" ["2009-02-01"]) ⟨[("Host", [u.Host])]⟩).1) := by
  simp [SQS.newRequest, NewRequest, hu, Values.set, Values.empty]

theorem newRequest_error (L : Lib) (W : World) (sqs : SQS) (method action url_ : String)
    (params : Values) (e : GoError) (hu : L.parseURL url_ = .error e) :
    sqs.newRequest L W method action url_ params = .error e := by
  simp [SQS.newRequest, NewRequest, hu]

theorem post_ok {τ : Type} (L : Lib) (W : World) (sqs : SQS) (action path : String)
    (params : Values) (onChild : τ → Xml → τ × Option GoError) (resp : τ) (u : URL)
    (hu : L.parseURL (stringsReplace1 sqs.Region.EC2Endpoint "ec2" "sqs" ++ path) = .ok u) :
    ∃ req : Request,
      sqs.post L W action path params onChild resp = sqs.doRequest L W req onChild resp ∧
      req.Method = "POST" ∧ req.URL = u ∧
      req.Header = (L.sign sqs.Auth "POST" u.Path
        (((params.set "Action" [action]).set "Timestamp" [W.now]).set "Version" ["2009-02-01"])
        ⟨[("Host", [u.Host])]⟩).2.set "Content-Type" ["application/x-www-form-urlencoded"] ∧
      req.Body = some (L.sign sqs.Auth "POST" u.Path
        (((params.set "Action" [action]).set "Timestamp" [W.now]).set "Version" ["2009-02-01"])
        ⟨[("Host", [u.Host])]⟩).1.Encode ∧
      req.ContentLength = ((L.sign sqs.Auth "POST" u.Path
        (((params.set "Action" [action]).set "Timestamp" [W.now]).set "Version" ["2009-02-01"])
        ⟨[("Host", [u.Host])]⟩).1.Encode.utf8ByteSize : Int) := by
  unfold SQS.post
  simp only [newRequest_ok L W sqs "POST" action _ params u hu]
  exact ⟨_, rfl, rfl, rfl, rfl, rfl, rfl⟩

theorem post_error {τ : Type} (L : Lib) (W : World) (sqs : SQS) (action path : String)
    (params : Values) (onChild : τ → Xml → τ × Option GoError) (resp : τ) (e : GoError)
    (hu : L.parseURL (stringsReplace1 sqs.Region.EC2Endpoint "ec2" "sqs" ++ path) = .error e) :
    sqs.post L W action path params onChild resp =
      ⟨some ⟨some e, 0, "", "", "", "", ""⟩, resp, []⟩ := by
  unfold SQS.post
  simp only [newRequest_error L W sqs "POST" action _ params e hu]

theorem get_ok {τ : Type} (L : Lib) (W : World) (sqs : SQS) (action path : String)
    (params : Option Values) (onChild : τ → Xml → τ × Option GoError) (resp : τ) (u : URL)
    (hu : L.parseURL (stringsReplace1 sqs.Region.EC2Endpoint "ec2" "sqs" ++ path) = .ok u) :
    ∃ req : Request,
      sqs.get L W action path params onChild resp = sqs.doRequest L W req onChild resp ∧
      req.Method = "GET" ∧
      (0 < (L.sign sqs.Auth "GET" u.Path
        ((((params.getD Values.empty).set "Action" [action]).set "Timestamp" [W.now]).set
          "Version" ["2009-02-01"]) ⟨[("Host", [u.Host])]⟩).1.len →
        req.URL.RawQuery = (L.sign sqs.Auth "GET" u.Path
          ((((params.getD Values.empty).set "Action" [action]).set "Timestamp" [W.now]).set
            "Version" ["2009-02-01"]) ⟨[("Host", [u.Host])]⟩).1.Encode) := by
  unfold SQS.get
  have hp : (match params with | none => Values.empty | some p => p) = params.getD Values.empty := by
    cases params <;> rfl
  simp only [hp, newRequest_ok L W sqs "GET" action _ _ u hu]
  refine ⟨_, rfl, ?_, ?_⟩
  · split <;> rfl
  · intro h
    simp [h]

theorem get_error {τ : Type} (L : Lib) (W : World) (sqs : SQS) (action path : String)
    (params : Option Values) (onChild : τ → Xml → τ × Option GoError) (resp : τ) (e : GoError)
    (hu : L.parseURL (stringsReplace1 sqs.Region.EC2Endpoint "ec2" "sqs" ++ path) = .error e) :
    sqs.get L W action path params onChild resp =
      ⟨some ⟨some e, 0, "", "", "", "", ""⟩, resp, []⟩ := by
  unfold SQS.get
  simp only [newRequest_error L W sqs "GET" action _ _ e hu]

/-- C4: there is one parameter set `P`, made from the caller's set, that
`newRequest` hands to the signer whatever the signer is: in `P` the key
`Action` holds exactly the action, `Version` exactly `2009-02-01`, `Timestamp`
exactly one value (the clock reading), and every other key holds what the
caller gave it.  `get` and `post` then send the encoding of what the signer
made of `P`, as the query and as the body. -/
theorem newRequest_sets_protocol_parameters (W : World) (sqs : SQS) (action : String)
    (params : Values) :
    ∃ P : Values,
      P.get? "Action" = some [action] ∧
      P.get? "Version" = some ["2009-02-01"] ∧
      P.get? "Timestamp" = some [W.now] ∧
      (∀ k, k ≠ "Action" → k ≠ "Timestamp" → k ≠ "Version" → P.get? k = params.get? k) ∧
      (∀ (L : Lib) (method url_ : String) (u : URL), L.parseURL url_ = .ok u →
        sqs.newRequest L W method action url_ params =
          .ok ({ Method := method, URL := u,
                 Header := (L.sign sqs.Auth method u.Path P ⟨[("Host", [u.Host])]⟩).2,
                 Host := u.Host, Body := none, ContentLength := 0 },
               (L.sign sqs.Auth method u.Path P ⟨[("Host", [u.Host])]⟩).1)) ∧
      (∀ (L : Lib) (path : String) (u : URL) (τ : Type)
          (onChild : τ → Xml → τ × Option GoError) (resp : τ),
        L.parseURL (stringsReplace1 sqs.Region.EC2Endpoint "ec2" "sqs" ++ path) = .ok u →
        0 < (L.sign sqs.Auth "GET" u.Path P ⟨[("Host", [u.Host])]⟩).1.len →
        ∃ req rest, (sqs.get L W action path (some params) onChild resp).log
            = Event.httpDo req :: rest ∧
          req.URL.RawQuery =
            (L.sign sqs.Auth "GET" u.Path P ⟨[("Host", [u.Host])]⟩).1.Encode) ∧
      (∀ (L : Lib) (path : String) (u : URL) (τ : Type)
          (onChild : τ → Xml → τ × Option GoError) (resp : τ),
        L.parseURL (stringsReplace1 sqs.Region.EC2Endpoint "ec2" "sqs" ++ path) = .ok u →
        ∃ req rest, (sqs.post L W action path params onChild resp).log
            = Event.httpDo req :: rest ∧
          req.Body =
            some (L.sign sqs.Auth "POST" u.Path P ⟨[("Host", [u.Host])]⟩).1.Encode) := by
  refine ⟨((params.set "Action" [action]).set "Timestamp" [W.now]).set "Version" ["2009-02-01"],
    ?_, ?_, ?_, ?_, ?_, ?_, ?_⟩
  · rw [Values.get?_set_ne _ _ _ _ (by decide), Values.get?_set_ne _ _ _ _ (by decide),
      Values.get?_set_self]
  · rw [Values.get?_set_self]
  · rw [Values.get?_set_ne _ _ _ _ (by decide), Values.get?_set_self]
  · intro k h1 h2 h3
    rw [Values.get?_set_ne _ _ _ _ h3, Values.get?_set_ne _ _ _ _ h2,
      Values.get?_set_ne _ _ _ _ h1]
  · intro L method url_ u hu
    exact newRequest_ok L W sqs method action url_ params u hu
  · intro L path u τ onChild resp hu hlen
    obtain ⟨req, hget, _, hq⟩ := get_ok L W sqs action path (some params) onChild resp u hu
    obtain ⟨rest, h, _⟩ := doRequest_log L W sqs req onChild resp
    exact ⟨req, rest, hget ▸ h, hq hlen⟩
  · intro L path u τ onChild resp hu
    obtain ⟨req, hpost, _, _, _, hb, _⟩ := post_ok L W sqs action path params onChild resp u hu
    obtain ⟨rest, h, _⟩ := doRequest_log L W sqs req onChild resp
    exact ⟨req, rest, hpost ▸ h, hb⟩

/-- The parameter set of C4 on a caller's set that already has an `Action`,
and the requests `get` and `post` send for it. -/
theorem newRequest_sets_protocol_parameters_witness :
    ∃ P : Values,
      P.get? "Action" = some ["ListQueues"] ∧
      P.get? "QueueNamePrefix" = some ["test"] ∧
      exampleSQS.newRequest exampleLib (worldOf listed) "GET" "ListQueues"
          "https://sqs.us-east-1.amazonaws.com/"
          ⟨[("Action", ["Bogus"]), ("QueueNamePrefix", ["test"])]⟩ =
        .ok ({ Method := "GET", URL := ⟨"https", "sqs.us-east-1.amazonaws.com", "/", ""⟩,
               Header := (exampleLib.sign exampleSQS.Auth "GET" "/" P
                 ⟨[("Host", ["sqs.us-east-1.amazonaws.com"])]⟩).2,
               Host := "sqs.us-east-1.amazonaws.com", Body := none, ContentLength := 0 },
             (exampleLib.sign exampleSQS.Auth "GET" "/" P
               ⟨[("Host", ["sqs.us-east-1.amazonaws.com"])]⟩).1) ∧
      (∃ req rest,
        (exampleSQS.get exampleLib (worldOf listed) "ListQueues" "/"
          (some ⟨[("Action", ["Bogus"]), ("QueueNamePrefix", ["test"])]⟩)
          listQueuesResponse.onChild ⟨[], ⟨""⟩⟩).log = Event.httpDo req :: rest ∧
        req.URL.RawQuery = (exampleLib.sign exampleSQS.Auth "GET" "/" P
          ⟨[("Host", ["sqs.us-east-1.amazonaws.com"])]⟩).1.Encode) ∧
      (∃ req rest,
        (exampleSQS.post exampleLib (worldOf listed) "ListQueues" "/"
          ⟨[("Action", ["Bogus"]), ("QueueNamePrefix", ["test"])]⟩
          listQueuesResponse.onChild ⟨[], ⟨""⟩⟩).log = Event.httpDo req :: rest ∧
        req.Body = some (exampleLib.sign exampleSQS.Auth "POST" "/" P
          ⟨[("Host", ["sqs.us-east-1.amazonaws.com"])]⟩).1.Encode) :=
  match newRequest_sets_protocol_parameters (worldOf listed) exampleSQS "ListQueues"
      ⟨[("Action", ["Bogus"]), ("QueueNamePrefix", ["test"])]⟩ with
  | ⟨P, hA, _, _, hK, hN, hG, hP⟩ =>
    ⟨P, hA, (hK "QueueNamePrefix" (by decide) (by decide) (by decide)).trans (by decide),
      hN exampleLib "GET" "https://sqs.us-east-1.amazonaws.com/"
        ⟨"https", "sqs.us-east-1.amazonaws.com", "/", ""⟩ rfl,
      hG exampleLib "/" ⟨"https", "sqs.us-east-1.amazonaws.com", "/", ""⟩ listQueuesResponse
        listQueuesResponse.onChild ⟨[], ⟨""⟩⟩ rfl (Values.len_set_pos _ "Signature" _),
      hP exampleLib "/" ⟨"https", "sqs.us-east-1.amazonaws.com", "/", ""⟩ listQueuesResponse
        listQueuesResponse.onChild ⟨[], ⟨""⟩⟩ rfl⟩

theorem sendMessage_log (L : Lib) (W : World) (q : Queue) (body : String) :
    (q.SendMessage L W body).log =
      (q.SQS.post L W "SendMessage" q.path ⟨[("MessageBody", [body])]⟩
        sendMessageResponse.onChild ⟨"", ⟨""⟩⟩).log := by
  unfold Queue.SendMessage
  simp only []
  split <;> rfl

/-- C6: `SendMessage` issues at most one HTTP request, and exactly one when
the endpoint parses.  Every request it issues has method `POST`; its URL is
the parsed endpoint, left as it is; its `Content-Type` header is
`application/x-www-form-urlencoded`; its body is the encoding of what the
signer made of a parameter set holding `MessageBody`; and its `ContentLength`
is the byte length of that body. -/
theorem sendMessage_uses_post (L : Lib) (W : World) (q : Queue) (body : String) :
    (∀ u, L.parseURL (stringsReplace1 q.SQS.Region.EC2Endpoint "ec2" "sqs" ++ q.path) = .ok u →
      ∃ req rest, (q.SendMessage L W body).log = Event.httpDo req :: rest ∧
        ∀ r, Event.httpDo r ∉ rest) ∧
    (∀ e, L.parseURL (stringsReplace1 q.SQS.Region.EC2Endpoint "ec2" "sqs" ++ q.path) = .error e →
      (q.SendMessage L W body).log = []) ∧
    (∀ req, Event.httpDo req ∈ (q.SendMessage L W body).log →
      req.Method = "POST" ∧
      L.parseURL (stringsReplace1 q.SQS.Region.EC2Endpoint "ec2" "sqs" ++ q.path) = .ok req.URL ∧
      req.Header.get? "Content-Type" = some ["application/x-www-form-urlencoded"] ∧
      ∃ (P : Values) (enc : String),
        P.get? "MessageBody" = some [body] ∧
        P.get? "Action" = some ["SendMessage"] ∧
        enc = (L.sign q.SQS.Auth "POST" req.URL.Path P ⟨[("Host", [req.URL.Host])]⟩).1.Encode ∧
        req.Body = some enc ∧
        req.ContentLength = (enc.utf8ByteSize : Int)) := by
  rw [sendMessage_log]
  cases hu : L.parseURL (stringsReplace1 q.SQS.Region.EC2Endpoint "ec2" "sqs" ++ q.path) with
  | error e =>
    rw [post_error L W q.SQS "SendMessage" q.path _ _ _ e hu]
    exact ⟨fun u h => (by cases h), fun _ _ => rfl, fun req h => (by cases h)⟩
  | ok u =>
    obtain ⟨req0, hpost, hm, hurl, hh, hb, hl⟩ := post_ok L W q.SQS "SendMessage" q.path
      ⟨[("MessageBody", [body])]⟩ sendMessageResponse.onChild ⟨"", ⟨""⟩⟩ u hu
    rw [hpost]
    obtain ⟨rest, hlog, hrest⟩ := doRequest_log L W q.SQS req0 sendMessageResponse.onChild
      ⟨"", ⟨""⟩⟩
    refine ⟨fun u1 _ => ⟨req0, rest, hlog, hrest⟩, fun e h => (by cases h), fun req h => ?_⟩
    rw [hlog] at h
    rcases List.mem_cons.mp h with h1 | h1
    · injection h1 with h2
      subst h2
      refine ⟨hm, by rw [hurl], ?_,
        ((Values.set ⟨[("MessageBody", [body])]⟩ "Action" ["SendMessage"]).set
          "Timestamp" [W.now]).set "Version" ["2009-02-01"], _, ?_, ?_, rfl, ?_, ?_⟩
      · rw [hh, Values.get?_set_self]
      · rw [Values.get?_set_ne _ _ _ _ (by decide), Values.get?_set_ne _ _ _ _ (by decide),
          Values.get?_set_ne _ _ _ _ (by decide)]
        rfl
      · rw [Values.get?_set_ne _ _ _ _ (by decide), Values.get?_set_ne _ _ _ _ (by decide),
          Values.get?_set_self]
      · rw [hb, hurl]
      · rw [hl, hurl]
    · exact absurd h1 (hrest req)

/-- The request `SendMessage` issues for the body `hello world`, and the lack
of any request when the endpoint does not parse. -/
theorem sendMessage_uses_post_witness :
    (∃ req rest,
      (exampleQueue.SendMessage exampleLib (worldOf forbidden) "hello world").log
        = Event.httpDo req :: rest ∧
      req.Method = "POST" ∧
      req.Header.get? "Content-Type" = some ["application/x-www-form-urlencoded"] ∧
      ∃ enc, req.Body = some enc ∧ req.ContentLength = (enc.utf8ByteSize : Int)) ∧
    (Queue.SendMessage exampleLib (worldOf forbidden) ⟨exampleSQS, "/no such queue"⟩
      "hello world").log = [] :=
  ⟨match (sendMessage_uses_post exampleLib (worldOf forbidden) exampleQueue "hello world").1
      ⟨"https", "sqs.us-east-1.amazonaws.com", "/123456789012/test-queue", ""⟩ rfl with
    | ⟨req, rest, hlog, _⟩ =>
      match (sendMessage_uses_post exampleLib (worldOf forbidden) exampleQueue "hello world").2.2
          req (by rw [hlog]; exact List.mem_cons_self _ _) with
      | ⟨hm, _, hc, _, enc, _, _, _, hb, hl⟩ => ⟨req, rest, hlog, hm, hc, enc, hb, hl⟩,
   (sendMessage_uses_post exampleLib (worldOf forbidden) ⟨exampleSQS, "/no such queue"⟩
      "hello world").2.1 "parse: invalid character in host name" rfl⟩

/-! ## Indexed parameters -/

theorem digitChar_toNat (d : Nat) (h : d < 10) : (digitChar d).toNat - 48 = d := by
  interval_cases d <;> rfl

theorem foldl_decimalAux (fuel n : Nat) (acc : List Char) (h : n < fuel) :
    (decimalAux fuel n acc).foldl (fun a c => a * 10 + (c.toNat - 48)) 0 =
      acc.foldl (fun a c => a * 10 + (c.toNat - 48)) n := by
  induction fuel generalizing n acc with
  | zero => omega
  | succ fuel ih =>
    unfold decimalAux
    by_cases hn : n < 10
    · simp only [hn, if_true, List.foldl_cons, digitChar_toNat n hn, Nat.zero_mul, Nat.zero_add]
    · simp only [hn, if_false]
      rw [ih (n / 10) _ (by omega), List.foldl_cons,
        digitChar_toNat (n % 10) (Nat.mod_lt _ (by decide))]
      congr 1
      omega

theorem digitsValue_decimal (n : Nat) : digitsValue (decimal n).data = n := by
  unfold digitsValue decimal
  rw [foldl_decimalAux (n + 1) n [] (by omega)]
  rfl

theorem decimal_injective (n m : Nat) (h : decimal n = decimal m) : n = m := by
  rw [← digitsValue_decimal n, ← digitsValue_decimal m, h]

theorem attributeKey_eq (i : Nat) : attributeKey i = "AttributeName." ++ decimal (i + 1) := by
  unfold attributeKey Itoa
  have h : ¬ ((i : Int) + 1 < 0) := by omega
  have h2 : ((i : Int) + 1).natAbs = i + 1 := by omega
  simp only [h, if_false, h2]

theorem attributeKey_injective (i j : Nat) (h : attributeKey i = attributeKey j) : i = j := by
  rw [attributeKey_eq, attributeKey_eq] at h
  have h1 := congrArg String.data h
  rw [String.data_append, String.data_append] at h1
  have h2 := List.append_cancel_left h1
  have h3 : decimal (i + 1) = decimal (j + 1) := String.ext h2
  have := decimal_injective _ _ h3
  omega

theorem filter_ne_of_absent (k : String) (l : List (String × List String))
    (h : ∀ p ∈ l, p.1 ≠ k) : l.filter (fun p => p.1 != k) = l := by
  rw [List.filter_eq_self]
  intro p hp
  simpa using h p hp

theorem attributeParams_entries (attrs : List Attribute) (i : Nat) (params : Values)
    (h : ∀ p ∈ params.entries, ∀ j, i ≤ j → p.1 ≠ attributeKey j) :
    (attributeParams i attrs params).entries =
      params.entries ++ (attrs.enumFrom i).map (fun p => (attributeKey p.1, [p.2])) := by
  induction attrs generalizing i params with
  | nil => simp [attributeParams]
  | cons attr rest ih =>
    have hset : (params.set (attributeKey i) [attr]).entries =
        params.entries ++ [(attributeKey i, [attr])] := by
      unfold Values.set
      simp only []
      rw [filter_ne_of_absent _ _ (fun p hp => h p hp i (Nat.le_refl i))]
    have hstep : attributeParams i (attr :: rest) params =
        attributeParams (i + 1) rest (params.set (attributeKey i) [attr]) := rfl
    rw [hstep, ih (i + 1) (params.set (attributeKey i) [attr]) ?_, hset]
    · simp [List.enumFrom]
    · intro p hp j hj
      rw [hset] at hp
      rcases List.mem_append.mp hp with hp1 | hp1
      · exact h p hp1 j (by omega)
      · have hp2 : p = (attributeKey i, [attr]) := by simpa using hp1
        rw [hp2]
        intro hk
        have := attributeKey_injective i j hk
        omega

theorem lookup_attributeKey (l : List Attribute) (i j : Nat) (h : j < l.length) :
    List.lookup (attributeKey (i + j))
      ((l.enumFrom i).map (fun p => (attributeKey p.1, [p.2]))) = some [l.get ⟨j, h⟩] := by
  induction l generalizing i j with
  | nil => simp at h
  | cons a l ih =>
    cases j with
    | zero => simp [List.enumFrom, List.lookup]
    | succ j =>
      have hne : (attributeKey (i + (j + 1)) == attributeKey i) = false := by
        simp only [beq_eq_false_iff_ne, ne_eq]
        intro hk
        have := attributeKey_injective _ _ hk
        omega
      simp only [List.enumFrom, List.map_cons, List.lookup_cons, hne]
      have h1 : j < l.length := by simpa using h
      have := ih (i + 1) j h1
      rw [show i + 1 + j = i + (j + 1) by omega] at this
      simpa using this

theorem lookup_absent (k : String) (l : List (String × List String))
    (h : ∀ p ∈ l, p.1 ≠ k) : List.lookup k l = none := by
  induction l with
  | nil => rfl
  | cons p l ih =>
    obtain ⟨a, b⟩ := p
    have hne : (k == a) = false := by
      simp only [beq_eq_false_iff_ne, ne_eq]
      exact fun e => h (a, b) (List.mem_cons_self _ _) e.symm
    rw [List.lookup_cons, hne]
    exact ih (fun p hp => h p (List.mem_cons_of_mem _ hp))

/-- C5: for a list of `n` attributes, the parameters `GetQueueAttributes`
builds and hands to `get` are exactly the `n` entries that map
`AttributeName.(i+1)` to the single value `attrs[i]`, for `i` from `0` to
`n-1` in this order; the keys are pairwise distinct, and neither
`AttributeName.0` nor `AttributeName.(n+1)` is among them. -/
theorem getQueueAttributes_indexed_parameters (attrs : List Attribute) :
    ∃ P : Values,
      P.entries = attrs.enum.map (fun p => ("AttributeName." ++ Itoa ((p.1 : Int) + 1), [p.2])) ∧
      P.entries.length = attrs.length ∧
      (P.entries.map Prod.fst).Nodup ∧
      (∀ i : Fin attrs.length,
        P.get? ("AttributeName." ++ Itoa ((i.val : Int) + 1)) = some [attrs.get i]) ∧
      (∀ k, P.get? k ≠ none →
        ∃ i : Fin attrs.length, k = "AttributeName." ++ Itoa ((i.val : Int) + 1)) ∧
      P.get? "AttributeName.0" = none ∧
      P.get? ("AttributeName." ++ Itoa ((attrs.length : Int) + 1)) = none ∧
      (∀ (L : Lib) (W : World) (q : Queue),
        (q.GetQueueAttributes L W attrs).err =
          (q.SQS.get L W "GetQueueAttributes" q.path (some P) QueueAttributes.onChild
            ⟨"", []⟩).err ∧
        (q.GetQueueAttributes L W attrs).log =
          (q.SQS.get L W "GetQueueAttributes" q.path (some P) QueueAttributes.onChild
            ⟨"", []⟩).log) := by
  have hent : (attributeParams 0 attrs Values.empty).entries =
      (attrs.enumFrom 0).map (fun p => (attributeKey p.1, [p.2])) := by
    rw [attributeParams_entries attrs 0 Values.empty (by simp [Values.empty])]
    simp [Values.empty]
  have hmem : ∀ p ∈ (attributeParams 0 attrs Values.empty).entries,
      ∃ i : Fin attrs.length, p.1 = attributeKey i.val := by
    intro p hp
    rw [hent] at hp
    obtain ⟨⟨j, a⟩, hja, rfl⟩ := List.mem_map.mp hp
    have := List.mem_enumFrom hja
    exact ⟨⟨j, by omega⟩, rfl⟩
  refine ⟨attributeParams 0 attrs Values.empty, hent, ?_, ?_, ?_, ?_, ?_, ?_, ?_⟩
  · rw [hent]
    simp
  · rw [hent, List.map_map]
    have : (Prod.fst ∘ fun p : Nat × Attribute => (attributeKey p.1, [p.2])) =
        attributeKey ∘ Prod.fst := rfl
    rw [this, ← List.map_map, List.enumFrom_map_fst]
    exact (List.nodup_range' 0 attrs.length).map (fun i j h => attributeKey_injective i j h)
  · intro i
    have := lookup_attributeKey attrs 0 i.val i.isLt
    rw [Nat.zero_add] at this
    unfold Values.get?
    rw [hent]
    exact this
  · intro k hk
    by_contra hno
    apply hk
    unfold Values.get?
    apply lookup_absent
    intro p hp hpk
    obtain ⟨i, hi⟩ := hmem p hp
    exact hno ⟨i, by rw [← hpk, hi]; rfl⟩
  · unfold Values.get?
    apply lookup_absent
    intro p hp hpk
    obtain ⟨i, hi⟩ := hmem p hp
    rw [hi, attributeKey_eq] at hpk
    have h1 := congrArg String.data hpk
    have h2 : ("AttributeName.0" : String).data = ("AttributeName." : String).data ++ (decimal 0).data := by
      decide
    rw [String.data_append, h2] at h1
    have h3 := List.append_cancel_left h1
    have h4 : decimal (i.val + 1) = decimal 0 := String.ext h3
    have := decimal_injective _ _ h4
    omega
  · unfold Values.get?
    apply lookup_absent
    intro p hp hpk
    obtain ⟨i, hi⟩ := hmem p hp
    have h5 : attributeKey i.val = attributeKey attrs.length := by rw [← hi, hpk]; rfl
    have := attributeKey_injective _ _ h5
    have := i.isLt
    omega
  · intro L W q
    unfold Queue.GetQueueAttributes
    simp only []
    constructor <;> split <;> simp_all

/-- The parameters built for the attributes `All` and `Policy`. -/
theorem getQueueAttributes_indexed_parameters_witness :
    ∃ P : Values,
      P.entries = [("AttributeName.1", ["All"]), ("AttributeName.2", ["Policy"])] ∧
      P.get? "AttributeName.2" = some ["Policy"] ∧
      P.get? "AttributeName.0" = none ∧
      P.get? "AttributeName.3" = none ∧
      ((P.get? "AttributeName.1" ≠ none) →
        ∃ i : Fin 2, "AttributeName.1" = "AttributeName." ++ Itoa ((i.val : Int) + 1)) :=
  match getQueueAttributes_indexed_parameters ["All", "Policy"] with
  | ⟨P, hent, _, _, hget, hk, h0, hn, _⟩ =>
    ⟨P, hent, hget ⟨1, by decide⟩, h0, hn, hk "AttributeName.1"⟩

/-! ## Decoding -/

theorem skipList_none (cs : List Xml) (h : Xml.skipList cs = none) :
    ∀ c ∈ cs, c.skip = none := by
  induction cs with
  | nil => intro c hc; cases hc
  | cons x xs ih =>
    intro c hc
    unfold Xml.skipList at h
    cases hx : x.skip with
    | some e => rw [hx] at h; cases h
    | none =>
      rw [hx] at h
      rcases List.mem_cons.mp hc with h1 | h1
      · rw [h1]; exact hx
      · exact ih h c h1

theorem skip_none_children (x : Xml) (h : x.skip = none) : ∀ c ∈ x.children, c.skip = none := by
  cases x with
  | text s => intro c hc; cases hc
  | elem n cs =>
    unfold Xml.skip at h
    exact skipList_none cs h
  | broken n cs e =>
    unfold Xml.skip at h
    cases hs : Xml.skipList cs <;> rw [hs] at h <;> cases h

theorem walk_fixed {σ : Type} (f : σ → Xml → σ × Option GoError) (s : σ) (cs : List Xml)
    (h : ∀ c ∈ cs, f s c = (s, none)) : walk f s cs = (s, none) := by
  induction cs with
  | nil => rfl
  | cons x xs ih =>
    unfold walk
    rw [h x (List.mem_cons_self _ _)]
    exact ih (fun c hc => h c (List.mem_cons_of_mem _ hc))

theorem inElement_fixed {σ : Type} (f : σ → Xml → σ × Option GoError) (s : σ) (x : Xml)
    (hwf : x.skip = none) (h : ∀ c ∈ x.children, f s c = (s, none)) :
    inElement f s x = (s, none) := by
  cases x with
  | text t => rfl
  | elem n cs => exact walk_fixed f s cs h
  | broken n cs e =>
    unfold Xml.skip at hwf
    cases hs : Xml.skipList cs <;> rw [hs] at hwf <;> cases hwf

theorem doRequest_ok {τ : Type} (L : Lib) (W : World) (sqs : SQS) (req : Request)
    (onChild : τ → Xml → τ × Option GoError) (resp : τ) (r : Response) (body : XmlInput)
    (ha : W.answer = .ok r) (hs : r.StatusCode = 200) (hb : r.Body = .ok body) :
    (sqs.doRequest L W req onChild resp).resp = (xmlUnmarshal onChild body resp).1 ∧
    (sqs.doRequest L W req onChild resp).err =
      (match (xmlUnmarshal onChild body resp).2 with
       | some e => some ⟨some e, 0, "", "", "", "", ""⟩
       | none => none) := by
  unfold SQS.doRequest
  rw [ha]
  simp only [hs, ne_eq, not_true_eq_false, if_false, hb]
  cases hx : xmlUnmarshal onChild body resp with
  | mk resp1 oe => cases oe <;> simp

theorem get_decoded {τ : Type} (L : Lib) (W : World) (sqs : SQS) (action path : String)
    (params : Option Values) (onChild : τ → Xml → τ × Option GoError) (resp : τ) (u : URL)
    (r : Response) (body : XmlInput)
    (hu : L.parseURL (stringsReplace1 sqs.Region.EC2Endpoint "ec2" "sqs" ++ path) = .ok u)
    (ha : W.answer = .ok r) (hs : r.StatusCode = 200) (hb : r.Body = .ok body) :
    (sqs.get L W action path params onChild resp).resp = (xmlUnmarshal onChild body resp).1 ∧
    (sqs.get L W action path params onChild resp).err =
      (match (xmlUnmarshal onChild body resp).2 with
       | some e => some ⟨some e, 0, "", "", "", "", ""⟩
       | none => none) := by
  obtain ⟨req, hget, _, _⟩ := get_ok L W sqs action path params onChild resp u hu
  rw [hget]
  exact doRequest_ok L W sqs req onChild resp r body ha hs hb

/-- C7: when the request of `ReceiveMessage` can be built and the service
answers it with status 200 and a well-formed body in which no
`ReceiveMessageResult` element has a `Message` child, `ReceiveMessage` returns
a nil error and a message whose `Id` and `Body` are empty. -/
theorem receiveMessage_empty_queue (L : Lib) (W : World) (q : Queue) (u : URL) (r : Response)
    (root : Xml)
    (hu : L.parseURL (stringsReplace1 q.SQS.Region.EC2Endpoint "ec2" "sqs" ++ q.path) = .ok u)
    (ha : W.answer = .ok r) (hs : r.StatusCode = 200) (hb : r.Body = .ok (.document root))
    (hwf : root.wellFormed)
    (hempty : ∀ c ∈ root.children, c.name? = some "ReceiveMessageResult" →
      ∀ d ∈ c.children, d.name? ≠ some "Message") :
    (q.ReceiveMessage L W).err = none ∧ (q.ReceiveMessage L W).val = some ⟨"", ""⟩ := by
  have hdec : xmlUnmarshal Message.onChild (.document root) ⟨"", ""⟩ = (⟨"", ""⟩, none) := by
    unfold xmlUnmarshal
    apply inElement_fixed _ _ _ hwf
    intro c hc
    have hcwf := skip_none_children root hwf c hc
    unfold Message.onChild
    by_cases hn : c.name? = some "ReceiveMessageResult"
    · rw [if_pos hn]
      apply inElement_fixed _ _ _ hcwf
      intro d hd
      have hdwf := skip_none_children c hcwf d hd
      unfold Message.onResult
      rw [if_neg (hempty c hc hn d hd)]
      unfold skipElement
      rw [hdwf]
    · rw [if_neg hn]
      unfold skipElement
      rw [hcwf]
  obtain ⟨h1, h2⟩ := get_decoded L W q.SQS "ReceiveMessage" q.path none Message.onChild
    ⟨"", ""⟩ u r (.document root) hu ha hs hb
  rw [hdec] at h1 h2
  unfold Queue.ReceiveMessage
  simp [h2, h1]

/-- The empty-queue answer quoted in `sqs.go` gives an empty message. -/
theorem receiveMessage_empty_queue_witness :
    (exampleQueue.ReceiveMessage exampleLib (worldOf emptyReceive)).err = none ∧
    (exampleQueue.ReceiveMessage exampleLib (worldOf emptyReceive)).val = some ⟨"", ""⟩ :=
  receiveMessage_empty_queue exampleLib (worldOf emptyReceive) exampleQueue
    ⟨"https", "sqs.us-east-1.amazonaws.com", "/123456789012/test-queue", ""⟩ emptyReceive
    (.elem "ReceiveMessageResponse"
      [.elem "ReceiveMessageResult" [],
       .elem "ResponseMetadata"
         [.elem "RequestId" [.text "29faed75-f44b-4424-a3dd-1beb1439c13a"]]])
    rfl rfl rfl rfl (by decide) (by decide)

/-! ## Queue handles -/

theorem listQueuesLoop_ok (L : Lib) (sqs : SQS) (us : List String) (qs : List Queue)
    (h : sqs.listQueuesLoop L us = .ok qs) :
    List.Forall₂ (fun x q => ∃ v, L.parseURL x = .ok v ∧ q = ⟨sqs, v.Path⟩) us qs := by
  induction us generalizing qs with
  | nil =>
    unfold SQS.listQueuesLoop at h
    injection h with h
    rw [← h]
    exact List.Forall₂.nil
  | cons x rest ih =>
    unfold SQS.listQueuesLoop at h
    cases hx : L.parseURL x with
    | error e => rw [hx] at h; cases h
    | ok v =>
      rw [hx] at h
      cases hr : sqs.listQueuesLoop L rest with
      | error e => rw [hr] at h; cases h
      | ok qs1 =>
        rw [hr] at h
        injection h with h
        rw [← h]
        exact List.Forall₂.cons ⟨v, hx, rfl⟩ (ih qs1 hr)

theorem listQueuesLoop_error (L : Lib) (sqs : SQS) (us : List String) (e : GoError)
    (h : sqs.listQueuesLoop L us = .error e) :
    ∃ before x after, us = before ++ x :: after ∧
      (∀ y ∈ before, ∃ v, L.parseURL y = .ok v) ∧ L.parseURL x = .error e := by
  induction us with
  | nil =>
    unfold SQS.listQueuesLoop at h
    cases h
  | cons x rest ih =>
    unfold SQS.listQueuesLoop at h
    cases hx : L.parseURL x with
    | error e1 =>
      rw [hx] at h
      injection h with h
      exact ⟨[], x, rest, rfl, fun y hy => (by cases hy), h ▸ hx⟩
    | ok v =>
      rw [hx] at h
      cases hr : sqs.listQueuesLoop L rest with
      | error e1 =>
        rw [hr] at h
        injection h with h
        obtain ⟨before, y, after, h1, h2, h3⟩ := ih (h ▸ hr)
        refine ⟨x :: before, y, after, by rw [h1]; rfl, ?_, h3⟩
        intro z hz
        rcases List.mem_cons.mp hz with hz1 | hz1
        · exact ⟨v, hz1 ▸ hx⟩
        · exact h2 z hz1
      | ok qs1 => rw [hr] at h; cases h

theorem forall₂_mem_left {α β : Type} {R : α → β → Prop} {l1 : List α} {l2 : List β}
    (h : List.Forall₂ R l1 l2) : ∀ x ∈ l1, ∃ y, R x y := by
  induction h with
  | nil => intro x hx; cases hx
  | cons hab _ ih =>
    intro x hx
    rcases List.mem_cons.mp hx with h1 | h1
    · exact ⟨_, h1 ▸ hab⟩
    · exact ih x h1

theorem listQueues_decoded (L : Lib) (W : World) (sqs : SQS) (namePrefix : String) (u : URL)
    (r : Response) (body : XmlInput) (resp : listQueuesResponse)
    (hu : L.parseURL (stringsReplace1 sqs.Region.EC2Endpoint "ec2" "sqs" ++ "/") = .ok u)
    (ha : W.answer = .ok r) (hs : r.StatusCode = 200) (hb : r.Body = .ok body)
    (hd : xmlUnmarshal listQueuesResponse.onChild body ⟨[], ⟨""⟩⟩ = (resp, none)) :
    (sqs.ListQueues L W namePrefix).val = (sqs.listQueuesLoop L resp.Queues).toOption ∧
    (sqs.ListQueues L W namePrefix).err =
      (match sqs.listQueuesLoop L resp.Queues with
       | .error e => some ⟨some e, 0, "", "", "", "", ""⟩
       | .ok _ => none) := by
  unfold SQS.ListQueues
  simp only []
  obtain ⟨h1, h2⟩ := get_decoded L W sqs "ListQueues" "/"
    (some (if namePrefix ≠ "" then Values.empty.set "QueueNamePrefix" [namePrefix]
      else Values.empty)) listQueuesResponse.onChild ⟨[], ⟨""⟩⟩ u r body hu ha hs hb
  rw [hd] at h1 h2
  simp only [] at h1 h2
  rw [h2, h1]
  simp only []
  cases sqs.listQueuesLoop L resp.Queues <;> exact ⟨rfl, rfl⟩

/-- C9: on a `ListQueues` answer that decodes without error into the URLs
`resp.Queues`: when every URL parses, `ListQueues` returns a nil error and one
handle per URL, in the order of the answer, the path of each handle being the
path of its URL; when some URL does not parse, it returns a nil slice and a
structured error whose cause is the parse failure of the first such URL. -/
theorem listQueues_all_or_nothing (L : Lib) (W : World) (sqs : SQS) (namePrefix : String)
    (u : URL) (r : Response) (body : XmlInput) (resp : listQueuesResponse)
    (hu : L.parseURL (stringsReplace1 sqs.Region.EC2Endpoint "ec2" "sqs" ++ "/") = .ok u)
    (ha : W.answer = .ok r) (hs : r.StatusCode = 200) (hb : r.Body = .ok body)
    (hd : xmlUnmarshal listQueuesResponse.onChild body ⟨[], ⟨""⟩⟩ = (resp, none)) :
    ((∀ x ∈ resp.Queues, ∃ v, L.parseURL x = .ok v) →
      (sqs.ListQueues L W namePrefix).err = none ∧
      ∃ qs, (sqs.ListQueues L W namePrefix).val = some qs ∧
        qs.length = resp.Queues.length ∧
        List.Forall₂ (fun x q => ∃ v, L.parseURL x = .ok v ∧ q = ⟨sqs, v.Path⟩)
          resp.Queues qs) ∧
    ((∃ x ∈ resp.Queues, ∃ e, L.parseURL x = .error e) →
      (sqs.ListQueues L W namePrefix).val = none ∧
      ∃ before x after e, resp.Queues = before ++ x :: after ∧
        (∀ y ∈ before, ∃ v, L.parseURL y = .ok v) ∧
        L.parseURL x = .error e ∧
        (sqs.ListQueues L W namePrefix).err = some ⟨some e, 0, "", "", "", "", ""⟩) := by
  obtain ⟨hv, he⟩ := listQueues_decoded L W sqs namePrefix u r body resp hu ha hs hb hd
  rw [hv, he]
  cases hl : sqs.listQueuesLoop L resp.Queues with
  | ok qs =>
    have hf := listQueuesLoop_ok L sqs resp.Queues qs hl
    constructor
    · intro _
      exact ⟨rfl, qs, rfl, hf.length_eq.symm, hf⟩
    · rintro ⟨x, hx, e, hxe⟩
      obtain ⟨q, v, hv1, _⟩ := forall₂_mem_left hf x hx
      rw [hxe] at hv1
      cases hv1
  | error e =>
    obtain ⟨before, x, after, h1, h2, h3⟩ := listQueuesLoop_error L sqs resp.Queues e hl
    constructor
    · intro hall
      obtain ⟨v, hv1⟩ := hall x (by rw [h1]; simp)
      rw [h3] at hv1
      cases hv1
    · intro _
      exact ⟨rfl, before, x, after, e, h1, h2, h3, rfl⟩

/-- The two cases of C9 on an answer with one queue and on an answer whose
second URL does not parse. -/
theorem listQueues_all_or_nothing_witness :
    ((exampleSQS.ListQueues exampleLib (worldOf listed) "test-queue").err = none ∧
      ∃ qs, (exampleSQS.ListQueues exampleLib (worldOf listed) "test-queue").val = some qs ∧
        qs.length = [testQueueUrl].length ∧
        List.Forall₂ (fun x q => ∃ v, exampleLib.parseURL x = .ok v ∧ q = ⟨exampleSQS, v.Path⟩)
          [testQueueUrl] qs) ∧
    ((exampleSQS.ListQueues exampleLib (worldOf listedBad) "").val = none ∧
      ∃ before x after e, [testQueueUrl, "not a url"] = before ++ x :: after ∧
        (∀ y ∈ before, ∃ v, exampleLib.parseURL y = .ok v) ∧
        exampleLib.parseURL x = .error e ∧
        (exampleSQS.ListQueues exampleLib (worldOf listedBad) "").err =
          some ⟨some e, 0, "", "", "", "", ""⟩) :=
  ⟨(listQueues_all_or_nothing exampleLib (worldOf listed) exampleSQS "test-queue"
      ⟨"https", "sqs.us-east-1.amazonaws.com", "/", ""⟩ listed _ ⟨[testQueueUrl], ⟨""⟩⟩
      rfl rfl rfl rfl rfl).1
      (fun x hx => ⟨⟨"https", "sqs.us-east-1.amazonaws.com", "/123456789012/test-queue", ""⟩,
        (List.mem_singleton.mp hx) ▸ rfl⟩),
   (listQueues_all_or_nothing exampleLib (worldOf listedBad) exampleSQS ""
      ⟨"https", "sqs.us-east-1.amazonaws.com", "/", ""⟩ listedBad _
      ⟨[testQueueUrl, "not a url"], ⟨""⟩⟩ rfl rfl rfl rfl rfl).2
      ⟨"not a url", by decide, "parse: invalid character in host name", rfl⟩⟩

theorem dropWhile_head_false {α : Type} (p : α → Bool) (a : α) (l : List α) (h : p a = false) :
    (a :: l).dropWhile p = a :: l := by
  simp [List.dropWhile, h]

theorem takeWhile_append_stop {α : Type} (p : α → Bool) (l r : List α) (a : α)
    (hl : ∀ x ∈ l, p x = true) (ha : p a = false) : (l ++ a :: r).takeWhile p = l := by
  induction l with
  | nil => simp [List.takeWhile, ha]
  | cons x xs ih =>
    have hx := hl x (List.mem_cons_self _ _)
    rw [List.cons_append, List.takeWhile_cons, hx, if_pos rfl,
      ih (fun y hy => hl y (List.mem_cons_of_mem _ hy))]

theorem pathBase_last_segment (before n : String) (hn : n ≠ "") (hs : '/' ∉ n.data) :
    pathBase (before ++ "/" ++ n) = n := by
  have hdata : (before ++ "/" ++ n).data = before.data ++ '/' :: n.data := by
    rw [String.data_append, String.data_append]
    simp
  have hnd : n.data ≠ [] := fun h => hn (String.ext h)
  have hne : before ++ "/" ++ n ≠ "" := by
    intro h
    have := congrArg String.data h
    rw [hdata] at this
    simp at this
  have hrev : (before.data ++ '/' :: n.data).reverse =
      n.data.reverse ++ '/' :: before.data.reverse := by simp
  obtain ⟨a, t, hat⟩ : ∃ a t, n.data.reverse = a :: t := by
    cases h : n.data.reverse with
    | nil => exact absurd (List.reverse_eq_nil_iff.mp h) hnd
    | cons a t => exact ⟨a, t, rfl⟩
  have ha : a ∈ n.data := by
    have : a ∈ n.data.reverse := by rw [hat]; exact List.mem_cons_self _ _
    exact List.mem_reverse.mp this
  have ha1 : (a == '/') = false := by
    simp only [beq_eq_false_iff_ne, ne_eq]
    intro h
    exact hs (h ▸ ha)
  have hdrop : (n.data.reverse ++ '/' :: before.data.reverse).dropWhile (fun c => c == '/') =
      n.data.reverse ++ '/' :: before.data.reverse := by
    rw [hat, List.cons_append]
    exact dropWhile_head_false _ a _ ha1
  have htake : (n.data.reverse ++ '/' :: before.data.reverse).takeWhile (fun c => c != '/') =
      n.data.reverse := by
    apply takeWhile_append_stop
    · intro x hx
      have hx1 : x ∈ n.data := List.mem_reverse.mp hx
      simp only [bne_iff_ne, ne_eq]
      intro h
      exact hs (h ▸ hx1)
    · simp
  unfold pathBase
  simp only [hne, if_false, hdata, hrev, hdrop, htake, List.reverse_reverse, hnd]

theorem createQueue_decoded (L : Lib) (W : World) (sqs : SQS) (name : String)
    (opt : Option CreateQueueOpt) (u : URL) (r : Response) (body : XmlInput)
    (resp : createQueuesResponse)
    (hu : L.parseURL (stringsReplace1 sqs.Region.EC2Endpoint "ec2" "sqs" ++ "/") = .ok u)
    (ha : W.answer = .ok r) (hs : r.StatusCode = 200) (hb : r.Body = .ok body)
    (hd : xmlUnmarshal createQueuesResponse.onChild body ⟨"", ⟨""⟩⟩ = (resp, none)) :
    (sqs.CreateQueue L W name opt).val =
      (match L.parseURL resp.QueueUrl with
       | .error _ => none
       | .ok v => some ⟨sqs, v.Path⟩) ∧
    (sqs.CreateQueue L W name opt).err =
      (match L.parseURL resp.QueueUrl with
       | .error e => some ⟨some e, 0, "", "", "", "", ""⟩
       | .ok _ => none) := by
  unfold SQS.CreateQueue
  simp only []
  obtain ⟨h1, h2⟩ := get_decoded L W sqs "CreateQueue" "/"
    (some (match opt with
      | none => (⟨[("QueueName", [name])]⟩ : Values)
      | some o =>
        ((⟨[("QueueName", [name])]⟩ : Values).set "DefaultVisibilityTimeout"
          [Itoa o.DefaultVisibilityTimeout]).set "MaximumMessageSize"
          [Itoa o.MaximumMessageSize]))
    createQueuesResponse.onChild ⟨"", ⟨""⟩⟩ u r body hu ha hs hb
  rw [hd] at h1 h2
  simp only [] at h1 h2
  rw [h2, h1]
  simp only []
  cases L.parseURL resp.QueueUrl <;> exact ⟨rfl, rfl⟩

/-- C10: for a non-empty queue name `n` without `/`: when the service answers
`CreateQueue(n)` with a queue URL whose path ends in `/n` and then answers
`ListQueues(n)` with exactly this URL, `CreateQueue` returns a handle,
`ListQueues` returns exactly one handle, the name of that handle is `n`, and
its resource path is the resource path of the handle `CreateQueue` returned. -/
theorem createQueue_listQueues_round_trip (L : Lib) (W1 W2 : World) (sqs : SQS) (n : String)
    (opt : Option CreateQueueOpt) (u u1 : URL) (r1 r2 : Response) (body1 body2 : XmlInput)
    (resp1 : createQueuesResponse) (resp2 : listQueuesResponse) (before : String)
    (hn : n ≠ "") (hslash : '/' ∉ n.data)
    (hu : L.parseURL (stringsReplace1 sqs.Region.EC2Endpoint "ec2" "sqs" ++ "/") = .ok u)
    (ha1 : W1.answer = .ok r1) (hs1 : r1.StatusCode = 200) (hb1 : r1.Body = .ok body1)
    (hd1 : xmlUnmarshal createQueuesResponse.onChild body1 ⟨"", ⟨""⟩⟩ = (resp1, none))
    (hp : L.parseURL resp1.QueueUrl = .ok u1) (hpath : u1.Path = before ++ "/" ++ n)
    (ha2 : W2.answer = .ok r2) (hs2 : r2.StatusCode = 200) (hb2 : r2.Body = .ok body2)
    (hd2 : xmlUnmarshal listQueuesResponse.onChild body2 ⟨[], ⟨""⟩⟩ = (resp2, none))
    (hq2 : resp2.Queues = [resp1.QueueUrl]) :
    ∃ qc ql : Queue,
      (sqs.CreateQueue L W1 n opt).val = some qc ∧
      (sqs.CreateQueue L W1 n opt).err = none ∧
      (sqs.ListQueues L W2 n).val = some [ql] ∧
      (sqs.ListQueues L W2 n).err = none ∧
      ql.Name = n ∧
      ql.path = qc.path := by
  obtain ⟨hc1, hc2⟩ := createQueue_decoded L W1 sqs n opt u r1 body1 resp1 hu ha1 hs1 hb1 hd1
  obtain ⟨hl1, hl2⟩ := listQueues_decoded L W2 sqs n u r2 body2 resp2 hu ha2 hs2 hb2 hd2
  rw [hp] at hc1 hc2
  have hloop : sqs.listQueuesLoop L resp2.Queues = .ok [⟨sqs, u1.Path⟩] := by
    rw [hq2]
    simp [SQS.listQueuesLoop, hp]
  rw [hloop] at hl1 hl2
  refine ⟨⟨sqs, u1.Path⟩, ⟨sqs, u1.Path⟩, hc1, hc2, hl1, hl2, ?_, rfl⟩
  unfold Queue.Name
  simp only [hpath]
  exact pathBase_last_segment before n hn hslash

/-- The round trip for the queue name `test-queue`. -/
theorem createQueue_listQueues_round_trip_witness :
    ∃ qc ql : Queue,
      (exampleSQS.CreateQueue exampleLib (worldOf created) "test-queue" none).val = some qc ∧
      (exampleSQS.CreateQueue exampleLib (worldOf created) "test-queue" none).err = none ∧
      (exampleSQS.ListQueues exampleLib (worldOf listed) "test-queue").val = some [ql] ∧
      (exampleSQS.ListQueues exampleLib (worldOf listed) "test-queue").err = none ∧
      ql.Name = "test-queue" ∧
      ql.path = qc.path :=
  createQueue_listQueues_round_trip exampleLib (worldOf created) (worldOf listed) exampleSQS
    "test-queue" none ⟨"https", "sqs.us-east-1.amazonaws.com", "/", ""⟩
    ⟨"https", "sqs.us-east-1.amazonaws.com", "/123456789012/test-queue", ""⟩
    created listed _ _ ⟨testQueueUrl, ⟨""⟩⟩ ⟨[testQueueUrl], ⟨""⟩⟩
    "/123456789012" (by decide) (by decide) rfl rfl rfl rfl rfl rfl (by decide) rfl rfl rfl
    rfl rfl

/-! ## The shape of structured errors -/

theorem walk_inv {σ : Type} (f : σ → Xml → σ × Option GoError) (I : σ → Prop)
    (hf : ∀ s x, I s → I (f s x).1) (s : σ) (cs : List Xml) (hs : I s) :
    I (walk f s cs).1 := by
  induction cs generalizing s with
  | nil => exact hs
  | cons x xs ih =>
    unfold walk
    have h1 := hf s x hs
    cases hfx : f s x with
    | mk s1 oe =>
      rw [hfx] at h1
      cases oe with
      | none => exact ih s1 h1
      | some e => exact h1

theorem xmlUnmarshal_inv {σ : Type} (f : σ → Xml → σ × Option GoError) (I : σ → Prop)
    (hf : ∀ s x, I s → I (f s x).1) (body : XmlInput) (s : σ) (hs : I s) :
    I (xmlUnmarshal f body s).1 := by
  cases body with
  | noRoot e => exact hs
  | document root =>
    unfold xmlUnmarshal
    cases root with
    | text t => exact hs
    | elem n cs => exact walk_inv f I hf s cs hs
    | broken n cs e =>
      have h1 := walk_inv f I hf s cs hs
      show I (match walk f s cs with
        | (s1, some e1) => (s1, some e1)
        | (s1, none) => (s1, some e)).1
      cases hw : walk f s cs with
      | mk s1 oe =>
        rw [hw] at h1
        cases oe <;> exact h1

theorem setString_error (assign : SqsError → String → SqsError)
    (ha : ∀ s v, (assign s v).Error = s.Error) (s : SqsError) (x : Xml) :
    (setString assign s x).1.Error = s.Error := by
  unfold setString
  cases elementText x with
  | ok v => exact ha s v
  | error e => rfl

theorem onChild_error (L : Lib) (s : SqsError) (x : Xml) :
    (SqsError.onChild L s x).1.Error = s.Error := by
  unfold SqsError.onChild
  split
  · rfl
  · split
    · cases elementText x with
      | error e => rfl
      | ok v =>
        simp only []
        split
        · rfl
        · cases L.parseInt v <;> rfl
    · repeat' split
      all_goals first
        | rfl
        | (apply setString_error; intro _ _; rfl)

theorem buildError_no_cause (L : Lib) (r : Response) (body : XmlInput) (hb : r.Body = .ok body) :
    (buildError L r).Error = none := by
  unfold buildError
  simp only [hb]
  exact xmlUnmarshal_inv (SqsError.onChild L) (fun s => s.Error = none)
    (fun s x hs => (onChild_error L s x).trans hs) body _ rfl

theorem buildError_causeAlone (L : Lib) (r : Response) : (buildError L r).causeAlone := by
  intro hc
  cases hb : r.Body with
  | ok body => exact absurd (buildError_no_cause L r body hb) hc
  | error e =>
    unfold buildError
    simp [hb]

theorem cause_only_causeAlone (c : GoError) :
    (⟨some c, 0, "", "", "", "", ""⟩ : SqsError).causeAlone :=
  fun _ => ⟨rfl, rfl, rfl, rfl⟩

theorem doRequest_err {τ : Type} (L : Lib) (W : World) (sqs : SQS) (req : Request)
    (onChild : τ → Xml → τ × Option GoError) (resp : τ) (e : SqsError)
    (h : (sqs.doRequest L W req onChild resp).err = some e) : e.causeAlone := by
  unfold SQS.doRequest at h
  cases ha : W.answer with
  | error c =>
    rw [ha] at h
    injection h with h
    exact h ▸ cause_only_causeAlone c
  | ok r =>
    rw [ha] at h
    by_cases hs : r.StatusCode = 200
    · simp only [hs, ne_eq, not_true_eq_false, if_false] at h
      cases hb : r.Body with
      | error c =>
        rw [hb] at h
        injection h with h
        exact h ▸ cause_only_causeAlone c
      | ok body =>
        rw [hb] at h
        simp only [] at h
        cases hx : xmlUnmarshal onChild body resp with
        | mk resp1 oe =>
          rw [hx] at h
          cases oe with
          | none => cases h
          | some c =>
            injection h with h
            exact h ▸ cause_only_causeAlone c
    · simp only [ne_eq, hs, not_false_eq_true, if_true] at h
      injection h with h
      exact h ▸ buildError_causeAlone L r

theorem get_err {τ : Type} (L : Lib) (W : World) (sqs : SQS) (action path : String)
    (params : Option Values) (onChild : τ → Xml → τ × Option GoError) (resp : τ) (e : SqsError)
    (h : (sqs.get L W action path params onChild resp).err = some e) : e.causeAlone := by
  cases hu : L.parseURL (stringsReplace1 sqs.Region.EC2Endpoint "ec2" "sqs" ++ path) with
  | error c =>
    rw [get_error L W sqs action path params onChild resp c hu] at h
    injection h with h
    exact h ▸ cause_only_causeAlone c
  | ok u =>
    obtain ⟨req, hget, _, _⟩ := get_ok L W sqs action path params onChild resp u hu
    rw [hget] at h
    exact doRequest_err L W sqs req onChild resp e h

theorem post_err {τ : Type} (L : Lib) (W : World) (sqs : SQS) (action path : String)
    (params : Values) (onChild : τ → Xml → τ × Option GoError) (resp : τ) (e : SqsError)
    (h : (sqs.post L W action path params onChild resp).err = some e) : e.causeAlone := by
  cases hu : L.parseURL (stringsReplace1 sqs.Region.EC2Endpoint "ec2" "sqs" ++ path) with
  | error c =>
    rw [post_error L W sqs action path params onChild resp c hu] at h
    injection h with h
    exact h ▸ cause_only_causeAlone c
  | ok u =>
    obtain ⟨req, hpost, _⟩ := post_ok L W sqs action path params onChild resp u hu
    rw [hpost] at h
    exact doRequest_err L W sqs req onChild resp e h

theorem listQueues_err (L : Lib) (W : World) (sqs : SQS) (namePrefix : String) (e : SqsError)
    (h : (sqs.ListQueues L W namePrefix).err = some e) : e.causeAlone := by
  unfold SQS.ListQueues at h
  simp only [] at h
  split at h
  · rename_i err herr
    injection h with h
    exact h ▸ get_err L W sqs _ _ _ _ _ err herr
  · split at h
    · rename_i c _
      injection h with h
      exact h ▸ cause_only_causeAlone c
    · cases h

theorem createQueue_err (L : Lib) (W : World) (sqs : SQS) (name : String)
    (opt : Option CreateQueueOpt) (e : SqsError)
    (h : (sqs.CreateQueue L W name opt).err = some e) : e.causeAlone := by
  unfold SQS.CreateQueue at h
  simp only [] at h
  split at h
  · rename_i err herr
    injection h with h
    exact h ▸ get_err L W sqs _ _ _ _ _ err herr
  · split at h
    · rename_i c _
      injection h with h
      exact h ▸ cause_only_causeAlone c
    · cases h

theorem queue_err (L : Lib) (W : World) (sqs : SQS) (name : String) (e : SqsError)
    (h : (sqs.Queue L W name).err = some e) : e.causeAlone := by
  unfold SQS.Queue at h
  simp only [] at h
  split at h
  · rename_i err herr
    injection h with h
    exact h ▸ listQueues_err L W sqs name err herr
  · split at h
    · cases h
    · injection h with h
      exact h ▸ cause_only_causeAlone _

theorem cause_only_exactlyOne (c : GoError) :
    (⟨some c, 0, "", "", "", "", ""⟩ : SqsError).exactlyOne := by
  unfold SqsError.exactlyOne SqsError.hasCause SqsError.hasServiceFields
  simp

theorem doRequest_err_origin {τ : Type} (L : Lib) (W : World) (sqs : SQS) (req : Request)
    (onChild : τ → Xml → τ × Option GoError) (resp : τ) (e : SqsError)
    (h : (sqs.doRequest L W req onChild resp).err = some e) :
    e.exactlyOne ∨ ∃ r, W.answer = .ok r ∧ r.StatusCode ≠ 200 ∧ e = buildError L r := by
  unfold SQS.doRequest at h
  cases ha : W.answer with
  | error c =>
    rw [ha] at h
    injection h with h
    exact Or.inl (h ▸ cause_only_exactlyOne c)
  | ok r =>
    rw [ha] at h
    by_cases hs : r.StatusCode = 200
    · simp only [hs, ne_eq, not_true_eq_false, if_false] at h
      cases hb : r.Body with
      | error c =>
        rw [hb] at h
        injection h with h
        exact Or.inl (h ▸ cause_only_exactlyOne c)
      | ok body =>
        rw [hb] at h
        simp only [] at h
        cases hx : xmlUnmarshal onChild body resp with
        | mk resp1 oe =>
          rw [hx] at h
          cases oe with
          | none => cases h
          | some c =>
            injection h with h
            exact Or.inl (h ▸ cause_only_exactlyOne c)
    · simp only [ne_eq, hs, not_false_eq_true, if_true] at h
      injection h with h
      exact Or.inr ⟨r, rfl, hs, h.symm⟩

theorem get_err_origin {τ : Type} (L : Lib) (W : World) (sqs : SQS) (action path : String)
    (params : Option Values) (onChild : τ → Xml → τ × Option GoError) (resp : τ) (e : SqsError)
    (h : (sqs.get L W action path params onChild resp).err = some e) :
    e.exactlyOne ∨ ∃ r, W.answer = .ok r ∧ r.StatusCode ≠ 200 ∧ e = buildError L r := by
  cases hu : L.parseURL (stringsReplace1 sqs.Region.EC2Endpoint "ec2" "sqs" ++ path) with
  | error c =>
    rw [get_error L W sqs action path params onChild resp c hu] at h
    injection h with h
    exact Or.inl (h ▸ cause_only_exactlyOne c)
  | ok u =>
    obtain ⟨req, hget, _, _⟩ := get_ok L W sqs action path params onChild resp u hu
    rw [hget] at h
    exact doRequest_err_origin L W sqs req onChild resp e h

theorem post_err_origin {τ : Type} (L : Lib) (W : World) (sqs : SQS) (action path : String)
    (params : Values) (onChild : τ → Xml → τ × Option GoError) (resp : τ) (e : SqsError)
    (h : (sqs.post L W action path params onChild resp).err = some e) :
    e.exactlyOne ∨ ∃ r, W.answer = .ok r ∧ r.StatusCode ≠ 200 ∧ e = buildError L r := by
  cases hu : L.parseURL (stringsReplace1 sqs.Region.EC2Endpoint "ec2" "sqs" ++ path) with
  | error c =>
    rw [post_error L W sqs action path params onChild resp c hu] at h
    injection h with h
    exact Or.inl (h ▸ cause_only_exactlyOne c)
  | ok u =>
    obtain ⟨req, hpost, _⟩ := post_ok L W sqs action path params onChild resp u hu
    rw [hpost] at h
    exact doRequest_err_origin L W sqs req onChild resp e h

theorem listQueues_err_origin (L : Lib) (W : World) (sqs : SQS) (namePrefix : String)
    (e : SqsError) (h : (sqs.ListQueues L W namePrefix).err = some e) :
    e.exactlyOne ∨ ∃ r, W.answer = .ok r ∧ r.StatusCode ≠ 200 ∧ e = buildError L r := by
  unfold SQS.ListQueues at h
  simp only [] at h
  split at h
  · rename_i err herr
    injection h with h
    exact h ▸ get_err_origin L W sqs _ _ _ _ _ err herr
  · split at h
    · rename_i c _
      injection h with h
      exact Or.inl (h ▸ cause_only_exactlyOne c)
    · cases h

theorem createQueue_err_origin (L : Lib) (W : World) (sqs : SQS) (name : String)
    (opt : Option CreateQueueOpt) (e : SqsError)
    (h : (sqs.CreateQueue L W name opt).err = some e) :
    e.exactlyOne ∨ ∃ r, W.answer = .ok r ∧ r.StatusCode ≠ 200 ∧ e = buildError L r := by
  unfold SQS.CreateQueue at h
  simp only [] at h
  split at h
  · rename_i err herr
    injection h with h
    exact h ▸ get_err_origin L W sqs _ _ _ _ _ err herr
  · split at h
    · rename_i c _
      injection h with h
      exact Or.inl (h ▸ cause_only_exactlyOne c)
    · cases h

theorem queue_err_origin (L : Lib) (W : World) (sqs : SQS) (name : String) (e : SqsError)
    (h : (sqs.Queue L W name).err = some e) :
    e.exactlyOne ∨ ∃ r, W.answer = .ok r ∧ r.StatusCode ≠ 200 ∧ e = buildError L r := by
  unfold SQS.Queue at h
  simp only [] at h
  split at h
  · rename_i err herr
    injection h with h
    exact h ▸ listQueues_err_origin L W sqs name err herr
  · split at h
    · cases h
    · injection h with h
      exact Or.inl (h ▸ cause_only_exactlyOne _)

/-- C8 as stated fails: on a 503 answer with a well-formed body that has none
of the service elements, `doRequest` returns an error with neither a cause
nor a service field; on a 502 answer whose body cannot be read, it returns an
error whose cause comes with `StatusMsg` as well as `StatusCode`.  Both are
what `buildError` makes of the answer. -/
theorem exactlyOne_fails :
    (exampleSQS.doRequest exampleLib (worldOf unavailable) exampleRequest Message.onChild
      ⟨"", ""⟩).err = some ⟨none, 503, "503 Service Unavailable", "", "", "", ""⟩ ∧
    buildError exampleLib unavailable = ⟨none, 503, "503 Service Unavailable", "", "", "", ""⟩ ∧
    ¬ (⟨none, 503, "503 Service Unavailable", "", "", "", ""⟩ : SqsError).exactlyOne ∧
    (exampleSQS.doRequest exampleLib (worldOf unreadable) exampleRequest Message.onChild
      ⟨"", ""⟩).err = some ⟨some "unexpected EOF", 502, "502 Bad Gateway", "", "", "", ""⟩ ∧
    buildError exampleLib unreadable =
      ⟨some "unexpected EOF", 502, "502 Bad Gateway", "", "", "", ""⟩ ∧
    ¬ (⟨some "unexpected EOF", 502, "502 Bad Gateway", "", "", "", ""⟩ : SqsError).exactlyOne := by
  decide

/-- C8, amended: every structured error that `doRequest`, `get`, `post`,
`ListQueues`, `CreateQueue` or `Queue` returns either has exactly one of
cause and service fields, with no field but `StatusCode` beside a cause, or
is what `buildError` made of an answer of the service whose status is not
200.  In every error, those of `buildError` included, a cause comes with none
of the service fields: when `Error` is set, `Type`, `Code`, `Message` and
`RequestId` are empty. -/
theorem exactlyOne_off_buildError (L : Lib) (W : World) (sqs : SQS) :
    (∀ r : Response, (buildError L r).causeAlone) ∧
    (∀ (τ : Type) (req : Request) (onChild : τ → Xml → τ × Option GoError) (resp : τ)
        (e : SqsError),
      (sqs.doRequest L W req onChild resp).err = some e →
        e.causeAlone ∧
        (e.exactlyOne ∨ ∃ r, W.answer = .ok r ∧ r.StatusCode ≠ 200 ∧ e = buildError L r)) ∧
    (∀ (τ : Type) (action path : String) (params : Option Values)
        (onChild : τ → Xml → τ × Option GoError) (resp : τ) (e : SqsError),
      (sqs.get L W action path params onChild resp).err = some e →
        e.causeAlone ∧
        (e.exactlyOne ∨ ∃ r, W.answer = .ok r ∧ r.StatusCode ≠ 200 ∧ e = buildError L r)) ∧
    (∀ (τ : Type) (action path : String) (params : Values)
        (onChild : τ → Xml → τ × Option GoError) (resp : τ) (e : SqsError),
      (sqs.post L W action path params onChild resp).err = some e →
        e.causeAlone ∧
        (e.exactlyOne ∨ ∃ r, W.answer = .ok r ∧ r.StatusCode ≠ 200 ∧ e = buildError L r)) ∧
    (∀ (namePrefix : String) (e : SqsError),
      (sqs.ListQueues L W namePrefix).err = some e →
        e.causeAlone ∧
        (e.exactlyOne ∨ ∃ r, W.answer = .ok r ∧ r.StatusCode ≠ 200 ∧ e = buildError L r)) ∧
    (∀ (name : String) (opt : Option CreateQueueOpt) (e : SqsError),
      (sqs.CreateQueue L W name opt).err = some e →
        e.causeAlone ∧
        (e.exactlyOne ∨ ∃ r, W.answer = .ok r ∧ r.StatusCode ≠ 200 ∧ e = buildError L r)) ∧
    (∀ (name : String) (e : SqsError),
      (sqs.Queue L W name).err = some e →
        e.causeAlone ∧
        (e.exactlyOne ∨ ∃ r, W.answer = .ok r ∧ r.StatusCode ≠ 200 ∧ e = buildError L r)) :=
  ⟨buildError_causeAlone L,
   fun _ req onChild resp e h =>
     ⟨doRequest_err L W sqs req onChild resp e h,
      doRequest_err_origin L W sqs req onChild resp e h⟩,
   fun _ action path params onChild resp e h =>
     ⟨get_err L W sqs action path params onChild resp e h,
      get_err_origin L W sqs action path params onChild resp e h⟩,
   fun _ action path params onChild resp e h =>
     ⟨post_err L W sqs action path params onChild resp e h,
      post_err_origin L W sqs action path params onChild resp e h⟩,
   fun namePrefix e h =>
     ⟨listQueues_err L W sqs namePrefix e h, listQueues_err_origin L W sqs namePrefix e h⟩,
   fun name opt e h =>
     ⟨createQueue_err L W sqs name opt e h, createQueue_err_origin L W sqs name opt e h⟩,
   fun name e h => ⟨queue_err L W sqs name e h, queue_err_origin L W sqs name e h⟩⟩

/-- Errors returned on an unreadable 502 answer, on a listed URL that does not
parse and on a queue that is not listed: the first is the work of
`buildError` and has a cause without service fields, the other two have
exactly one of cause and service fields. -/
theorem exactlyOne_off_buildError_witness :
    (buildError exampleLib unreadable).hasCause ∧
    (buildError exampleLib unreadable).causeAlone ∧
    ((⟨some "unexpected EOF", 502, "502 Bad Gateway", "", "", "", ""⟩ : SqsError).causeAlone ∧
      ((⟨some "unexpected EOF", 502, "502 Bad Gateway", "", "", "", ""⟩ : SqsError).exactlyOne ∨
        ∃ r, (worldOf unreadable).answer = .ok r ∧ r.StatusCode ≠ 200 ∧
          (⟨some "unexpected EOF", 502, "502 Bad Gateway", "", "", "", ""⟩ : SqsError) =
            buildError exampleLib r)) ∧
    ((⟨some "parse: invalid character in host name", 0, "", "", "", "", ""⟩ : SqsError).causeAlone ∧
      ((⟨some "parse: invalid character in host name", 0, "", "", "", "", ""⟩ :
          SqsError).exactlyOne ∨
        ∃ r, (worldOf listedBad).answer = .ok r ∧ r.StatusCode ≠ 200 ∧
          (⟨some "parse: invalid character in host name", 0, "", "", "", "", ""⟩ : SqsError) =
            buildError exampleLib r)) ∧
    ((⟨some "Did not find the queue.", 0, "", "", "", "", ""⟩ : SqsError).causeAlone ∧
      ((⟨some "Did not find the queue.", 0, "", "", "", "", ""⟩ : SqsError).exactlyOne ∨
        ∃ r, (worldOf listed).answer = .ok r ∧ r.StatusCode ≠ 200 ∧
          (⟨some "Did not find the queue.", 0, "", "", "", "", ""⟩ : SqsError) =
            buildError exampleLib r)) :=
  ⟨by decide,
   (exactlyOne_off_buildError exampleLib (worldOf unreadable) exampleSQS).1 unreadable,
   (exactlyOne_off_buildError exampleLib (worldOf unreadable) exampleSQS).2.1
     Message exampleRequest Message.onChild ⟨"", ""⟩
     ⟨some "unexpected EOF", 502, "502 Bad Gateway", "", "", "", ""⟩ (by decide),
   (exactlyOne_off_buildError exampleLib (worldOf listedBad) exampleSQS).2.2.2.2.1
     "" ⟨some "parse: invalid character in host name", 0, "", "", "", "", ""⟩ (by decide),
   (exactlyOne_off_buildError exampleLib (worldOf listed) exampleSQS).2.2.2.2.2.2
     "other-queue" ⟨some "Did not find the queue.", 0, "", "", "", "", ""⟩ (by decide)⟩

end Sqs
